import Mathlib

/-!
Verification of the PlasmoTrack / microspat domain model against its
specification.  The definitions below are shallow embeddings of the Python
source in `app/plasmomapper/models.py` and `app/microspat/events_v2/base.py`:
peak records and flag sub-maps become structures over `Rat`, peak lists become
`List Peak`, JSON-ish payloads become an inductive value type, and the
stateful methods become pure state-passing functions.  Machine floats are
modelled as rationals; Python `IndexError` and friends become `Except`.
-/

namespace PlasmoTrack

/-- Peak flag sub-map, keys as written by GenotypingProject.analyze_samples. -/
structure PeakFlags where
  below_relative_threshold : Bool
  bleedthrough : Bool
  crosstalk : Bool
  artifact : Bool
deriving DecidableEq

/-- One annotated peak record (the map exchanged between the pipeline stages).
Only the fields consumed by the verified methods are modelled; `bin_id` is
`none` when the peak fell into no bin (Python `None`). -/
structure Peak where
  peak_index : ℕ
  peak_height : ℚ
  relative_peak_height : ℚ
  bleedthrough_ratio : ℚ
  crosstalk_ratio : ℚ
  in_bin : Bool
  bin_id : Option ℕ
  artifact_contribution : ℚ
  artifact_error : ℚ
  probability : ℚ
  flags : PeakFlags
deriving DecidableEq

/-- Python `any(peak['flags'].values())` over the four flag keys. -/
def anyFlagTrue (p : Peak) : Bool :=
  p.flags.below_relative_threshold || p.flags.bleedthrough || p.flags.crosstalk || p.flags.artifact

/-- GenotypingLocusParams columns used by analyze_samples / get_best_run /
probabilistic peak annotation (models.py lines 1458-1467). -/
structure GenotypingLocusParams where
  soft_artifact_sd_limit : ℚ
  hard_artifact_sd_limit : ℚ
  offscale_threshold : ℚ
  bleedthrough_filter_limit : ℚ
  crosstalk_filter_limit : ℚ
  relative_peak_height_limit : ℚ
  absolute_peak_height_limit : ℚ
  failure_threshold : ℚ
deriving DecidableEq

/-- A ProjectChannelAnnotations row joined with its channel's well and ladder:
the fields get_best_run reads (channel.sample_id, channel.locus_id,
well.sizing_quality, well.ladder.unusable_sq_limit, annotated_peaks). -/
structure ChAnnot where
  sample_id : ℕ
  locus_id : ℕ
  sizing_quality : ℚ
  unusable_sq_limit : ℚ
  annotated_peaks : List Peak
deriving DecidableEq

/-- A SampleLocusAnnotation row.  The free-form flags map is modelled by the
three keys the genotyping pipeline writes; `alleles` keeps the Python dict of
`str(bin_id)` keys as an association list on `Option ℕ`. -/
structure SLAnnot where
  sample_id : ℕ
  locus_id : ℕ
  annotated_peaks : List Peak
  failure : Bool
  offscale : Bool
  manual_curation : Bool
  alleles : List (Option ℕ × Bool)
  reference_run : Option ChAnnot
deriving DecidableEq

/-- A ProjectSampleAnnotations row with its locus annotations. -/
structure PSAnnot where
  moi : ℕ
  locus_annots : List SLAnnot
deriving DecidableEq

/-- The GenotypingProject state consumed by probabilistic_peak_annotation:
its probability_threshold column, get_locus_parameters, and the sample
annotation rows of the project. -/
structure GPState where
  probability_threshold : ℚ
  locus_params : ℕ → GenotypingLocusParams
  sample_annots : List PSAnnot

/-- Python truthiness guard `locus_annotation.annotated_peaks and not
locus_annotation.flags['failure']` used throughout models.py. -/
def nonFailed (a : SLAnnot) : Bool :=
  !a.annotated_peaks.isEmpty && !a.failure

/-- Probability initialization for one peak (models.py lines 1190-1194). -/
def initPeakProb (p : Peak) : Peak :=
  if p.in_bin && !anyFlagTrue p then { p with probability := 1 }
  else { p with probability := 0 }

/-- Probability initialization for one locus annotation (models.py 1188-1195). -/
def initAnnotProbs (a : SLAnnot) : SLAnnot :=
  if nonFailed a then { a with annotated_peaks := a.annotated_peaks.map initPeakProb }
  else a

/-- Step 1 of probabilistic_peak_annotation across the whole project. -/
def initProbabilities (st : GPState) : GPState :=
  { st with
      sample_annots :=
        st.sample_annots.map (fun sa =>
          { sa with locus_annots := sa.locus_annots.map initAnnotProbs }) }

/-- All SampleLocusAnnotation rows of the project, in query order. -/
def allAnnots (st : GPState) : List SLAnnot :=
  (st.sample_annots.map PSAnnot.locus_annots).flatten

/-- Membership test of a peak in the per-cycle allele count
(models.py line 1215): in bin, unflagged, probability at or above threshold. -/
def countedPeak (th : ℚ) (p : Peak) : Bool :=
  p.in_bin && !anyFlagTrue p && decide (th ≤ p.probability)

/-- allele_counts[locus][bin] of one refinement cycle (models.py 1207-1216). -/
def alleleCount (th : ℚ) (annots : List SLAnnot) (locus : ℕ) (bin : Option ℕ) : ℕ :=
  ((annots.filter (fun a => nonFailed a && decide (a.locus_id = locus))).map
    (fun a => (a.annotated_peaks.filter
      (fun p => countedPeak th p && decide (p.bin_id = bin))).length)).sum

/-- locus_totals[locus] of one refinement cycle (models.py 1208-1213). -/
def locusTotal (annots : List SLAnnot) (locus : ℕ) : ℕ :=
  (annots.filter (fun a => nonFailed a && decide (a.locus_id = locus))).length

/-- allele_frequencies[locus][bin] of one cycle (models.py 1218-1222);
rational division, `q / 0 = 0` standing in for the key-absent case that the
source never reaches for the peaks it evaluates. -/
def alleleFrequency (th : ℚ) (annots : List SLAnnot) (locus : ℕ) (bin : Option ℕ) : ℚ :=
  (alleleCount th annots locus bin : ℚ) / (locusTotal annots locus : ℚ)

/-- Per-sample MOI re-estimate of one cycle (models.py 1227-1232): the
maximum, over non-failed locus annotations, of the count of peaks with
probability at or above the threshold. -/
def moiOf (th : ℚ) (sa : PSAnnot) : ℕ :=
  sa.locus_annots.foldl
    (fun m a =>
      if nonFailed a then
        max m (a.annotated_peaks.filter (fun p => decide (th ≤ p.probability))).length
      else m) 0

/-- The possible-artifact test of models.py lines 1245-1247:
peak_height - artifact_contribution - artifact_error * soft_artifact_sd_limit
at or below absolute_peak_height_limit. -/
def heightCond (lp : GenotypingLocusParams) (p : Peak) : Bool :=
  decide (p.peak_height - p.artifact_contribution - p.artifact_error * lp.soft_artifact_sd_limit
    ≤ lp.absolute_peak_height_limit)

/-- Lookup in an association list built left to right with later entries
overwriting earlier ones: the Python dict `new_probs` keyed by peak_index. -/
def lastAssocD : List (ℕ × ℚ) → ℕ → ℚ → ℚ
  | [], _, d => d
  | kv :: rest, k, d => lastAssocD rest k (if kv.1 = k then kv.2 else d)

/-- The re-estimation formula of models.py lines 1250-1258 for one peak,
with `freq` the locus's allele_frequencies row and `called` the peaks of the
annotation above threshold.  Other peaks are identified by peak_index, as in
the source. -/
def newProbOf (freq : Option ℕ → ℚ) (moi : ℕ) (called : List Peak) (p : Peak) : ℚ :=
  let this_f := freq p.bin_id * p.probability
  let others := ((called.filter (fun x => decide (x.peak_index ≠ p.peak_index))).map
    (fun x => freq x.bin_id * x.probability)).sum
  ((others + this_f) ^ moi - others ^ moi) / (others + this_f) ^ moi

/-- One refinement-cycle update of a single locus annotation
(models.py 1234-1266), returning the updated annotation and whether any
re-estimated probability fell below the threshold. -/
def updateAnnotCycle (th : ℚ) (lp : GenotypingLocusParams) (freq : Option ℕ → ℚ)
    (moi : ℕ) (a : SLAnnot) : SLAnnot × Bool :=
  if nonFailed a then
    let called := a.annotated_peaks.filter (fun p => decide (th < p.probability))
    let possible := called.filter (fun p => heightCond lp p)
    let new_probs := possible.map (fun p => (p.peak_index, newProbOf freq moi called p))
    let upd := a.annotated_peaks.map (fun p =>
      if decide (th < p.probability) && heightCond lp p then
        { p with probability := lastAssocD new_probs p.peak_index p.probability }
      else p)
    let changed := possible.any (fun p => decide (lastAssocD new_probs p.peak_index p.probability < th))
    ({ a with annotated_peaks := upd }, changed)
  else (a, false)

/-- One refinement-cycle update of a single sample (models.py 1224-1266):
re-estimate its MOI from the pre-cycle probabilities, then update each of its
locus annotations. -/
def updateSampleCycle (th : ℚ) (lps : ℕ → GenotypingLocusParams)
    (freq : ℕ → Option ℕ → ℚ) (sa : PSAnnot) : PSAnnot × Bool :=
  let moi := moiOf th sa
  let pairs := sa.locus_annots.map (fun a => updateAnnotCycle th (lps a.locus_id) (freq a.locus_id) moi a)
  ({ sa with moi := moi, locus_annots := pairs.map Prod.fst }, pairs.any Prod.snd)

/-- One full refinement cycle of probabilistic_peak_annotation
(models.py 1203-1266).  Allele frequencies are computed once from the
pre-cycle state; every annotation's new probabilities read only pre-cycle
values, so the cycle is a simultaneous update. -/
def oneCycle (st : GPState) : GPState × Bool :=
  let annots := allAnnots st
  let freq := fun locus bin => alleleFrequency st.probability_threshold annots locus bin
  let pairs := st.sample_annots.map (updateSampleCycle st.probability_threshold st.locus_params freq)
  ({ st with sample_annots := pairs.map Prod.fst }, pairs.any Prod.snd)

/-- The `while alleles_changed` loop, fuel-bounded (the source has no
iteration bound; see spec section 4.10).  Returns the final state, the number
of completed cycles, and whether the loop converged within the fuel. -/
def runCycles : ℕ → GPState → GPState × ℕ × Bool
  | 0, st => (st, 0, false)
  | fuel + 1, st =>
    let r := oneCycle st
    if r.2 then
      let s := runCycles fuel r.1
      (s.1, s.2.1 + 1, s.2.2)
    else (r.1, 1, true)

/-- Python `locus_annotation.alleles[str(peak['bin_id'])] = True`: update the
key if present, else add it. -/
def setAlleleTrue (al : List (Option ℕ × Bool)) (k : Option ℕ) : List (Option ℕ × Bool) :=
  if al.any (fun kv => decide (kv.1 = k)) then
    al.map (fun kv => if kv.1 = k then (kv.1, true) else kv)
  else al ++ [(k, true)]

/-- Final allele-map rebuild of probabilistic_peak_annotation
(models.py 1271-1279). -/
def rebuildAlleles (th : ℚ) (a : SLAnnot) : SLAnnot :=
  let cleared := a.alleles.map (fun kv => (kv.1, false))
  if nonFailed a then
    { a with
        alleles :=
          (a.annotated_peaks.filter (fun p => decide (th ≤ p.probability))).foldl
            (fun al p => setAlleleTrue al p.bin_id) cleared }
  else { a with alleles := cleared }

/-- GenotypingProject.probabilistic_peak_annotation (models.py 1171-1283),
fuel-bounded: initialize probabilities, iterate cycles to convergence, rebuild
every allele map.  Returns the state, the cycle count, and convergence. -/
def probabilistic_peak_annot (fuel : ℕ) (st : GPState) : GPState × ℕ × Bool :=
  let st0 := initProbabilities st
  let r := runCycles fuel st0
  let st2 := { r.1 with
      sample_annots :=
        r.1.sample_annots.map (fun sa =>
          { sa with locus_annots := sa.locus_annots.map (rebuildAlleles r.1.probability_threshold) }) }
  (st2, r.2.1, r.2.2)

/-- Written from claim C1's words, for comparison with the cycle update: with
f(x) = allele_frequency(bin(x)) * probability(x), this = f(p), others the sum
of f over called peaks q of the same annotation with q different from p,
total = (others + this) ^ moi, the new probability is
(total - others ^ moi) / total. -/
def claimNewProb (st : GPState) (a : SLAnnot) (moi : ℕ) (p : Peak) : ℚ :=
  let called := a.annotated_peaks.filter (fun q => decide (st.probability_threshold < q.probability))
  let f := fun q : Peak =>
    alleleFrequency st.probability_threshold (allAnnots st) a.locus_id q.bin_id * q.probability
  let others := ((called.filter (fun q => decide (q ≠ p))).map f).sum
  ((others + f p) ^ moi - others ^ moi) / (others + f p) ^ moi

/-- The j-th locus annotation of the i-th sample annotation of a project. -/
def annotAt (st : GPState) (i j : ℕ) (hi : i < st.sample_annots.length)
    (hj : j < (st.sample_annots.get ⟨i, hi⟩).locus_annots.length) : SLAnnot :=
  (st.sample_annots.get ⟨i, hi⟩).locus_annots.get ⟨j, hj⟩

/-- Best in-bin, under-offscale peak height of a channel annotation, 0 when no
peak qualifies (models.py 1320-1334). -/
def bestPeakHeight (lp : GenotypingLocusParams) (ca : ChAnnot) : ℚ :=
  let hs := (ca.annotated_peaks.filter
    (fun y => decide (y.peak_height < lp.offscale_threshold) && y.in_bin)).map Peak.peak_height
  match hs with
  | [] => 0
  | h :: t => t.foldl max h

/-- One step of get_best_run's selection loop (models.py 1313-1337): the
first candidate is adopted outright, later ones only on strictly larger best
peak height. -/
def bestStep (lp : GenotypingLocusParams) (best : Option ChAnnot) (ann : ChAnnot) :
    Option ChAnnot :=
  match best with
  | none => some ann
  | some b => if bestPeakHeight lp b < bestPeakHeight lp ann then some ann else some b

/-- GenotypingProject.get_best_run (models.py 1302-1338): among the project's
channel annotations for (sample, locus) whose well sizing quality is below the
ladder's unusable limit, keep the one with the largest best peak height (first
on ties). -/
def get_best_run (lp : GenotypingLocusParams) (cas : List ChAnnot)
    (sample locus : ℕ) : Option ChAnnot :=
  let l1 := cas.filter (fun x => decide (x.sample_id = sample) && decide (x.locus_id = locus))
  let l2 := l1.filter (fun x => decide (x.sizing_quality < x.unusable_sq_limit))
  l2.foldl (bestStep lp) none

/-- The peak flag stamping of analyze_samples (models.py 1116-1139): the flags
sub-map is rebuilt from scratch from the current locus parameters. -/
def computePeakFlags (lp : GenotypingLocusParams) (p : Peak) : Peak :=
  { p with
    flags :=
      { below_relative_threshold := decide (p.relative_peak_height < lp.relative_peak_height_limit)
        artifact := decide (p.peak_height - p.artifact_contribution
          - p.artifact_error * lp.hard_artifact_sd_limit < lp.absolute_peak_height_limit)
        bleedthrough := decide (lp.bleedthrough_filter_limit < p.bleedthrough_ratio)
          || decide (lp.offscale_threshold < p.peak_height * p.bleedthrough_ratio)
        crosstalk := decide (lp.crosstalk_filter_limit < p.crosstalk_ratio)
          || decide (lp.offscale_threshold < p.peak_height * p.crosstalk_ratio) } }

/-- Body of analyze_samples for one locus annotation (models.py 1107-1168),
given the best run chosen for it (or none). -/
def processAnnot (lp : GenotypingLocusParams) (best : Option ChAnnot) (a : SLAnnot) : SLAnnot :=
  match best with
  | none => { a with reference_run := none, annotated_peaks := [] }
  | some ca =>
    let peaks := ca.annotated_peaks.map (computePeakFlags lp)
    let failure := !(peaks.any (fun x => decide (lp.failure_threshold < x.peak_height)))
    let offscale := peaks.any (fun x =>
      decide (lp.offscale_threshold < x.peak_height)
      || decide (lp.offscale_threshold < x.peak_height * x.bleedthrough_ratio)
      || decide (lp.offscale_threshold < x.peak_height * x.crosstalk_ratio))
    let cleared := a.alleles.map (fun kv => (kv.1, false))
    let alleles :=
      if !failure then
        (peaks.filter (fun p => p.in_bin && !anyFlagTrue p)).foldl
          (fun al p => setAlleleTrue al p.bin_id) cleared
      else cleared
    { a with
        reference_run := some ca
        annotated_peaks := peaks
        failure := failure
        offscale := offscale
        manual_curation := false
        alleles := alleles }

/-- GenotypingProject.analyze_samples for one locus (models.py 1102-1169):
every locus annotation at that locus is reprocessed from its best run. -/
def analyze_samples (lp : GenotypingLocusParams) (cas : List ChAnnot) (locus : ℕ)
    (annots : List SLAnnot) : List SLAnnot :=
  annots.map (fun a =>
    if a.locus_id = locus then processAnnot lp (get_best_run lp cas a.sample_id a.locus_id) a
    else a)

/-! ProjectLocusParams and the staleness hook (models.py 24-38, 1365-1418).
The SQLAlchemy before-update event is modelled as a pure function from the
pre-update row and the assigned row to the persisted row; `params_changed`
reduces, for a flushed update, to a value diff over the named field set.
Variant rows (bin-, artifact-, genotyping-, quantification-bias params) add
columns outside both named sets; they are modelled by the `extra` field. -/

/-- scanning_method column, validated to cwt or relmax. -/
inductive ScanMethod where
  | relmax
  | cwt
deriving DecidableEq

/-- A ProjectLocusParams row: the PeakScanner scanning-parameter set, the
filter-parameter set, both staleness flags, and any variant-specific columns
(which belong to neither named set). -/
structure ProjectLocusParams where
  scanning_method : ScanMethod
  maxima_window : ℤ
  argrelmax_window : ℤ
  trace_smoothing_window : ℤ
  trace_smoothing_order : ℤ
  tophat_factor : ℚ
  cwt_min_width : ℤ
  cwt_max_width : ℤ
  min_snr : ℚ
  noise_perc : ℚ
  min_peak_height : ℤ
  max_peak_height : ℤ
  min_peak_height_ratio : ℚ
  max_bleedthrough : ℚ
  max_crosstalk : ℚ
  min_peak_distance : ℚ
  scanning_parameters_stale : Bool
  filter_parameters_stale : Bool
  extra : List ℚ
deriving DecidableEq

/-- params_changed over the filter_parameters key set (models.py 24-38,
1386-1395): true when some filter-set column of the flushed update differs. -/
def filterParamsChanged (old new : ProjectLocusParams) : Bool :=
  decide (old.min_peak_height ≠ new.min_peak_height)
  || decide (old.max_peak_height ≠ new.max_peak_height)
  || decide (old.min_peak_height_ratio ≠ new.min_peak_height_ratio)
  || decide (old.max_bleedthrough ≠ new.max_bleedthrough)
  || decide (old.max_crosstalk ≠ new.max_crosstalk)
  || decide (old.min_peak_distance ≠ new.min_peak_distance)

/-- params_changed over the scanning_parameters key set (models.py 24-38,
71-84). -/
def scanningParamsChanged (old new : ProjectLocusParams) : Bool :=
  decide (old.scanning_method ≠ new.scanning_method)
  || decide (old.maxima_window ≠ new.maxima_window)
  || decide (old.argrelmax_window ≠ new.argrelmax_window)
  || decide (old.trace_smoothing_window ≠ new.trace_smoothing_window)
  || decide (old.trace_smoothing_order ≠ new.trace_smoothing_order)
  || decide (old.tophat_factor ≠ new.tophat_factor)
  || decide (old.cwt_min_width ≠ new.cwt_min_width)
  || decide (old.cwt_max_width ≠ new.cwt_max_width)
  || decide (old.min_snr ≠ new.min_snr)
  || decide (old.noise_perc ≠ new.noise_perc)

/-- The stale_parameters before-update hook (models.py 1397-1418) applied to a
persisted update taking the row from `old` to `new`: each changed named set
forces its staleness flag. -/
def persistUpdate (old new : ProjectLocusParams) : ProjectLocusParams :=
  let n1 := if filterParamsChanged old new then { new with filter_parameters_stale := true } else new
  if scanningParamsChanged old new then { n1 with scanning_parameters_stale := true } else n1

/-! The real-time event gateway (app/microspat/events_v2/base.py). -/

/-- JSON-ish request payload values.  Python floats are not modelled; note
that in the source a Python bool is an int subtype, so it follows the int
branch of extract_ids. -/
inductive JVal where
  | jnull
  | jbool (b : Bool)
  | jint (n : ℤ)
  | jstr (s : String)
  | jlist (l : List JVal)

/-- Errors a get-request id extraction can surface: Python KeyError (missing
field), TypeError (int() of an unsupported type), or the GetException
carrying the message Field id not valid. -/
inductive GetErr where
  | keyErr
  | typeErr
  | invalidInput
deriving DecidableEq

/-- Python int() on one value: ints and bools convert, strings parse or raise
ValueError, anything else raises TypeError.  valueErr is encoded through
invalidInput only at the extract_ids level; here valueErr is represented as
invalidInput's precursor via a dedicated marker. -/
inductive PyNumErr where
  | valueErr
  | typeErr
deriving DecidableEq

/-- Python int(x) for the modelled value universe. -/
def pyInt : JVal → Except PyNumErr ℤ
  | .jint n => .ok n
  | .jbool b => .ok (if b then 1 else 0)
  | .jstr s =>
    match s.toInt? with
    | some n => .ok n
    | none => .error .valueErr
  | .jnull => .error .typeErr
  | .jlist _ => .error .typeErr

/-- Python list(map(int, l)): left to right, first failure wins. -/
def pyIntList : List JVal → Except PyNumErr (List ℤ)
  | [] => .ok []
  | v :: rest =>
    match pyInt v with
    | .error e => .error e
    | .ok n =>
      match pyIntList rest with
      | .error e => .error e
      | .ok ns => .ok (n :: ns)

/-- extract_ids (base.py 80-91) on the payload's id field (`none` = field
absent): `json['id']` raises KeyError when absent; a list is mapped through
int() with ValueError caught as the GetException; an int or str converts with
ValueError caught; any other shape raises the GetException directly. -/
def extract_ids : Option JVal → Except GetErr (List ℤ)
  | none => .error .keyErr
  | some v =>
    match v with
    | .jlist l =>
      match pyIntList l with
      | .ok ns => .ok ns
      | .error .valueErr => .error .invalidInput
      | .error .typeErr => .error .typeErr
    | .jint n => .ok [n]
    | .jbool b => .ok [if b then 1 else 0]
    | .jstr s =>
      match pyInt (.jstr s) with
      | .ok n => .ok [n]
      | .error _ => .error .invalidInput
    | .jnull => .error .invalidInput

/-- Reference description of the corrected error contract for extract_ids,
written from the amended claim: a missing id is a key-lookup failure; an int,
bool, or parsing string yields its one-element list; a list converts its
elements left to right, where a non-parsing string is the invalid-input
failure and a null or nested list is a type failure; a null or other
non-int/str/list id is the invalid-input failure. -/
def specList : List JVal → Except GetErr (List ℤ)
  | [] => .ok []
  | .jint n :: rest => (specList rest).map (fun ns => n :: ns)
  | .jbool b :: rest => (specList rest).map (fun ns => (if b then 1 else 0) :: ns)
  | .jstr s :: rest =>
    match s.toInt? with
    | some n => (specList rest).map (fun ns => n :: ns)
    | none => .error .invalidInput
  | .jnull :: _ => .error .typeErr
  | .jlist _ :: _ => .error .typeErr

/-- Top level of the corrected reference contract for extract_ids. -/
def specExtract : Option JVal → Except GetErr (List ℤ)
  | none => .error .keyErr
  | some (.jint n) => .ok [n]
  | some (.jbool b) => .ok [if b then 1 else 0]
  | some (.jstr s) =>
    match s.toInt? with
    | some n => .ok [n]
    | none => .error .invalidInput
  | some .jnull => .error .invalidInput
  | some (.jlist l) => specList l

/-- subset (base.py 94-99), fuel-structural so that it evaluates by kernel
reduction; `subset l size` instantiates the fuel at `l.length`, which is
enough for any positive size.  The source generator never terminates when
`subset_size = 0`; the model is only meaningful for positive sizes (the
handler default is 384). -/
def subsetFuel : ℕ → List α → ℕ → List (List α)
  | 0, _, _ => []
  | _ + 1, [], _ => []
  | fuel + 1, x :: xs, size =>
    (x :: xs).take size :: subsetFuel fuel ((x :: xs).drop size) size

/-- subset (base.py 94-99): successive slices l[i : i + size]. -/
def subset (l : List α) (size : ℕ) : List (List α) :=
  subsetFuel l.length l size

/-- One persisted row of the table a gateway handler serves. -/
structure TableRow where
  id : ℤ
  payload : ℤ
deriving DecidableEq

/-- base_get (base.py 50-62): for each id chunk, the rows whose id is in the
chunk are loaded and published as one get event; the result is the list of
published row batches in emission order. -/
def base_get (rows : List TableRow) (ids : List ℤ) (size : ℕ) : List (List TableRow) :=
  (subset ids size).map (fun chunk => rows.filter (fun r => decide (r.id ∈ chunk)))

/-! ArtifactEstimator breakpoints (models.py 859-906).  The regression fit
itself lives in the artifact_estimator module, which is not under src. -/

/-- One {start_size, end_size, method} parameter set; method is always the
TSR literal and is omitted. -/
structure ArtifactParamSet where
  start_size : ℚ
  end_size : ℚ
deriving DecidableEq

/-- An ArtifactEquation row (models.py 920-928). -/
structure ArtifactEquation where
  sd : ℚ
  r_squared : ℚ
  slope : ℚ
  intercept : ℚ
  start_size : ℚ
  end_size : ℚ
deriving DecidableEq

/-- The coefficient part of a fitted equation: sd, r_squared, slope,
intercept. -/
structure FitCoeffs where
  sd : ℚ
  r_squared : ℚ
  slope : ℚ
  intercept : ℚ
deriving DecidableEq

/-- An ArtifactEstimator row's equation list. -/
structure ArtifactEstimatorState where
  artifact_equations : List ArtifactEquation
deriving DecidableEq

/-- ArtifactEstimator.generate_estimating_equations (models.py 859-869).
Modelled from the spec: the superclass fit (module
artifact_estimator.ArtifactEstimator, not under src) discards the prior
equations and refits one equation per parameter set over the peaks of that
segment, each equation carrying its segment's start_size and end_size; the
regression coefficients are abstracted by the `fit` argument. -/
def generate_estimating_equations (fit : ArtifactParamSet → FitCoeffs)
    (est : ArtifactEstimatorState) (param_sets : List ArtifactParamSet) :
    ArtifactEstimatorState :=
  { est with
      artifact_equations := param_sets.map (fun ps =>
        let c := fit ps
        { sd := c.sd, r_squared := c.r_squared, slope := c.slope, intercept := c.intercept,
          start_size := ps.start_size, end_size := ps.end_size }) }

/-- ArtifactEstimator.add_breakpoint (models.py 871-897): every segment
strictly containing the breakpoint is replaced by its two halves, all
segments are refitted. -/
def add_breakpoint (fit : ArtifactParamSet → FitCoeffs) (est : ArtifactEstimatorState)
    (b : ℚ) : ArtifactEstimatorState :=
  let old := est.artifact_equations.map (fun eq => ArtifactParamSet.mk eq.start_size eq.end_size)
  let news := (old.map (fun ps =>
    if ps.start_size < b ∧ b < ps.end_size then
      [ArtifactParamSet.mk ps.start_size b, ArtifactParamSet.mk b ps.end_size]
    else [ps])).flatten
  generate_estimating_equations fit est news

/-- ArtifactEstimator.clear_breakpoints (models.py 899-906); the locus's
min_base_length and max_base_length are passed by the caller. -/
def clear_breakpoints (fit : ArtifactParamSet → FitCoeffs) (est : ArtifactEstimatorState)
    (minL maxL : ℚ) : ArtifactEstimatorState :=
  generate_estimating_equations fit est [ArtifactParamSet.mk minL maxL]

/-- The (start_size, end_size) spans of an estimator's equations. -/
def segmentBounds (est : ArtifactEstimatorState) : List (ℚ × ℚ) :=
  est.artifact_equations.map (fun e => (e.start_size, e.end_size))

/-! Channel.find_max_data_point (models.py 2002-2013) and its callers. -/

/-- The locus fields the scan reads. -/
structure LocusRange where
  min_base_length : ℚ
  max_base_length : ℚ
deriving DecidableEq

/-- The well fields the scan reads. -/
structure WellSizing where
  base_sizes : List ℚ
  ladder_peak_indices : List ℕ
deriving DecidableEq

/-- The channel fields the scan reads and writes. -/
structure TraceChannel where
  data : List ℚ
  max_data_point : ℚ
  locus : Option LocusRange
  well : WellSizing
deriving DecidableEq

/-- First loop of find_max_data_point (models.py 2005-2007): advance j while
base_sizes[ladder_peak_indices[j]] is below the locus minimum; an
out-of-range read of either list is the error. -/
def findJ (bs : List ℚ) (minL : ℚ) : List ℕ → ℕ → Except Unit ℕ
  | [], _ => .error ()
  | k :: rest, j =>
    if hk : k < bs.length then
      if bs.get ⟨k, hk⟩ < minL then findJ bs minL rest (j + 1) else .ok j
    else .error ()

/-- Body of the second loop after `i += 1` (models.py 2010-2013): read
base_sizes[i]; if above the locus minimum, read data[i] and keep the maximum
signal seen so far. -/
def readStep (bs data : List ℚ) (minL : ℚ) (i : ℕ) (m : ℚ) : Except Unit ℚ :=
  if hi : i < bs.length then
    if minL < bs.get ⟨i, hi⟩ then
      if hd : i < data.length then
        .ok (if m < data.get ⟨i, hd⟩ then data.get ⟨i, hd⟩ else m)
      else .error ()
    else .ok m
  else .error ()

/-- Second loop of find_max_data_point (models.py 2009-2013), fuel-structural;
with fuel `bs.length + 1` the fuel can only run out after the index has
already run past the trace, which the source reaches as an IndexError. -/
def scanLoop (bs data : List ℚ) (minL maxL : ℚ) : ℕ → ℕ → ℚ → Except Unit ℚ
  | 0, _, _ => .error ()
  | fuel + 1, i, m =>
    if hi : i < bs.length then
      if bs.get ⟨i, hi⟩ < maxL then
        match readStep bs data minL (i + 1) m with
        | .error e => .error e
        | .ok m2 => scanLoop bs data minL maxL fuel (i + 1) m2
      else .ok m
    else .error ()

/-- Channel.find_max_data_point (models.py 2002-2013): no-op without an
assigned locus or with no ladder peak indices; otherwise sort the ladder peak
indices in place, find the first one sized at or above the locus minimum,
start one index before it (Python index -1 reaching the last element when the
first qualifies), and scan forward until the trace size reaches the locus
maximum, tracking the maximal data value.  Out-of-range list access is the
error. -/
def find_max_data_point (ch : TraceChannel) : Except Unit TraceChannel :=
  match ch.locus with
  | none => .ok ch
  | some locus =>
    let w := ch.well
    if w.ladder_peak_indices.isEmpty then .ok ch
    else
      let lpi := w.ladder_peak_indices.insertionSort (· ≤ ·)
      (findJ w.base_sizes locus.min_base_length lpi 0).bind (fun j =>
        let i0 := if j = 0 then lpi.getLastD 0 else lpi.getD (j - 1) 0
        (scanLoop w.base_sizes ch.data locus.min_base_length locus.max_base_length
            (w.base_sizes.length + 1) i0 ch.max_data_point).bind (fun m =>
          .ok { ch with max_data_point := m, well := { w with ladder_peak_indices := lpi } }))

/-! Concrete fixtures used by witnesses and counterexamples. -/

/-- A ProjectLocusParams row at the source defaults. -/
def plpBase : ProjectLocusParams :=
  { scanning_method := .relmax, maxima_window := 10, argrelmax_window := 6,
    trace_smoothing_window := 11, trace_smoothing_order := 7, tophat_factor := 1/200,
    cwt_min_width := 4, cwt_max_width := 15, min_snr := 3, noise_perc := 13,
    min_peak_height := 150, max_peak_height := 40000, min_peak_height_ratio := 0,
    max_bleedthrough := 4, max_crosstalk := 4, min_peak_distance := 2,
    scanning_parameters_stale := false, filter_parameters_stale := false, extra := [] }

/-- An update of plpBase touching one filter field and one scanning field. -/
def plpTouched : ProjectLocusParams :=
  { plpBase with min_peak_height := 151, maxima_window := 11 }

/-- A small table for the chunked-get witness. -/
def rowsFix : List TableRow := [⟨1, 10⟩, ⟨2, 20⟩, ⟨5, 50⟩]

/-- Requested ids for the chunked-get witness. -/
def idsFix : List ℤ := [2, 1, 9]

/-- A degenerate fit for breakpoint witnesses. -/
def fitFix : ArtifactParamSet → FitCoeffs := fun _ => ⟨0, 0, 0, 0⟩

/-- One artifact equation spanning 10..100. -/
def eqnFix : ArtifactEquation :=
  { sd := 1, r_squared := 1, slope := 0, intercept := 0, start_size := 10, end_size := 100 }

/-- An estimator holding the single full-range equation. -/
def estFix : ArtifactEstimatorState := { artifact_equations := [eqnFix] }

/-- The all-false peak flag sub-map. -/
def peakFlagsFalse : PeakFlags :=
  { below_relative_threshold := false, bleedthrough := false, crosstalk := false,
    artifact := false }

/-- A clean in-bin peak used by several fixtures. -/
def basePeak : Peak :=
  { peak_index := 0, peak_height := 1000, relative_peak_height := 1,
    bleedthrough_ratio := 0, crosstalk_ratio := 0, in_bin := true, bin_id := some 1,
    artifact_contribution := 0, artifact_error := 0, probability := 1,
    flags := peakFlagsFalse }

/-- GenotypingLocusParams at the source defaults. -/
def lpFix : GenotypingLocusParams :=
  { soft_artifact_sd_limit := 3, hard_artifact_sd_limit := 1, offscale_threshold := 32000,
    bleedthrough_filter_limit := 2, crosstalk_filter_limit := 2,
    relative_peak_height_limit := 1/100, absolute_peak_height_limit := 50,
    failure_threshold := 500 }

/-- A usable run: sizing quality below the unusable limit. -/
def caGoodFix : ChAnnot :=
  { sample_id := 1, locus_id := 2, sizing_quality := 1, unusable_sq_limit := 10,
    annotated_peaks := [basePeak] }

/-- An unusable run at the limit, with a taller peak. -/
def caBadFix : ChAnnot :=
  { sample_id := 1, locus_id := 2, sizing_quality := 10, unusable_sq_limit := 10,
    annotated_peaks := [{ basePeak with peak_height := 5000 }] }

/-- The channel annotations visible to the fixture project. -/
def casFix : List ChAnnot := [caBadFix, caGoodFix]

/-- A sample-locus annotation carrying a pre-existing manual-curation mark. -/
def slaFix : SLAnnot :=
  { sample_id := 1, locus_id := 2, annotated_peaks := [], failure := false,
    offscale := false, manual_curation := true, alleles := [(some 1, true)],
    reference_run := none }

/-- The fixture project's locus annotations at locus 2. -/
def annotsFix : List SLAnnot := [slaFix]

/-- A channel whose ladder peaks all size below the locus minimum: the first
scan loop runs past the end of ladder_peak_indices. -/
def cexChannel : TraceChannel :=
  { data := [0], max_data_point := 0,
    locus := some { min_base_length := 1, max_base_length := 2 },
    well := { base_sizes := [0], ladder_peak_indices := [0] } }

/-- A channel on which the scan stays in range. -/
def okChannel : TraceChannel :=
  { data := [3, 4], max_data_point := 0,
    locus := some { min_base_length := 1, max_base_length := 5 },
    well := { base_sizes := [1, 5], ladder_peak_indices := [0, 1] } }

/-- A homozygous-style annotation whose single in-bin peak is far above the
possible-artifact region. -/
def annotTall : SLAnnot :=
  { sample_id := 1, locus_id := 2,
    annotated_peaks := [{ basePeak with peak_height := 5000 }],
    failure := false, offscale := false, manual_curation := false,
    alleles := [(some 1, false)], reference_run := none }

/-- A project in which no peak satisfies the possible-artifact condition. -/
def gpFixC2 : GPState :=
  { probability_threshold := 1/2, locus_params := fun _ => lpFix,
    sample_annots := [{ moi := 0, locus_annots := [annotTall] }] }

/-- A low peak in bin 1: a possible artifact once called. -/
def peakA : Peak := { basePeak with peak_index := 0, peak_height := 40, bin_id := some 1 }

/-- A tall peak in bin 2. -/
def peakB : Peak := { basePeak with peak_index := 1, peak_height := 1000, bin_id := some 2 }

/-- An annotation carrying one possible-artifact peak and one real peak. -/
def annotTwoPeaks : SLAnnot :=
  { sample_id := 1, locus_id := 7, annotated_peaks := [peakA, peakB],
    failure := false, offscale := false, manual_curation := false,
    alleles := [], reference_run := none }

/-- A project driving one probability re-estimation; the zero threshold keeps
the fixture free of rational division. -/
def gpFixC1 : GPState :=
  { probability_threshold := 0, locus_params := fun _ => lpFix,
    sample_annots := [{ moi := 0, locus_annots := [annotTwoPeaks] }] }

/-! Theorems.  Each claim of the specification is settled by exactly one
theorem below; helper lemmas are shared. -/

/-- lastAssocD returns the default when the key is absent. -/
lemma lastAssocD_not_mem : ∀ (l : List (ℕ × ℚ)) (k : ℕ) (d : ℚ),
    k ∉ l.map Prod.fst → lastAssocD l k d = d := by
  intro l
  induction l with
  | nil => intro k d _; rfl
  | cons kv rest ih =>
    intro k d h
    simp only [List.map_cons, List.mem_cons, not_or] at h
    have hne : ¬ kv.1 = k := fun he => h.1 he.symm
    simp only [lastAssocD, if_neg hne]
    exact ih k d h.2

/-- lastAssocD finds the unique binding when keys are distinct. -/
lemma lastAssocD_eq : ∀ (l : List (ℕ × ℚ)) (k : ℕ) (v d : ℚ),
    (l.map Prod.fst).Nodup → (k, v) ∈ l → lastAssocD l k d = v := by
  intro l
  induction l with
  | nil => intro k v d _ hm; simp at hm
  | cons kv rest ih =>
    intro k v d hnd hm
    simp only [List.map_cons, List.nodup_cons] at hnd
    rcases List.mem_cons.mp hm with h | h
    · have h1 : kv.1 = k := by rw [← h]
      have h2 : kv.2 = v := by rw [← h]
      simp only [lastAssocD, if_pos h1, h2]
      refine lastAssocD_not_mem rest k v ?_
      rw [← h1]
      exact hnd.1
    · have hk : ¬ kv.1 = k := by
        intro he
        exact hnd.1 (he ▸ (List.mem_map.mpr ⟨(k, v), h, rfl⟩))
      simp only [lastAssocD, if_neg hk]
      exact ih k v d hnd.2 h

/-- Flattening a map to singletons is the plain map. -/
lemma flatten_map_singleton (l : List α) (g : α → β) :
    (l.map (fun x => [g x])).flatten = l.map g := by
  induction l with
  | nil => rfl
  | cons x t ih => simp [ih]

/-- C5: on every persisted ProjectLocusParams update (any polymorphic
variant; variant-only columns live outside both named sets), changing a
filter-set field forces filter_parameters_stale, and changing a scanning-set
field forces scanning_parameters_stale.  Status: confirmed. -/
theorem c5_stale_parameters (p q : ProjectLocusParams) :
    ((p.min_peak_height ≠ q.min_peak_height ∨ p.max_peak_height ≠ q.max_peak_height ∨
      p.min_peak_height_ratio ≠ q.min_peak_height_ratio ∨ p.max_bleedthrough ≠ q.max_bleedthrough ∨
      p.max_crosstalk ≠ q.max_crosstalk ∨ p.min_peak_distance ≠ q.min_peak_distance) →
      (persistUpdate p q).filter_parameters_stale = true) ∧
    ((p.scanning_method ≠ q.scanning_method ∨ p.maxima_window ≠ q.maxima_window ∨
      p.argrelmax_window ≠ q.argrelmax_window ∨ p.trace_smoothing_window ≠ q.trace_smoothing_window ∨
      p.trace_smoothing_order ≠ q.trace_smoothing_order ∨ p.tophat_factor ≠ q.tophat_factor ∨
      p.cwt_min_width ≠ q.cwt_min_width ∨ p.cwt_max_width ≠ q.cwt_max_width ∨
      p.min_snr ≠ q.min_snr ∨ p.noise_perc ≠ q.noise_perc) →
      (persistUpdate p q).scanning_parameters_stale = true) := by
  constructor
  · intro h
    have hf : filterParamsChanged p q = true := by
      simp only [filterParamsChanged, Bool.or_eq_true, decide_eq_true_eq]
      tauto
    simp only [persistUpdate, hf, if_true]
    split <;> simp
  · intro h
    have hs : scanningParamsChanged p q = true := by
      simp only [scanningParamsChanged, Bool.or_eq_true, decide_eq_true_eq]
      tauto
    simp only [persistUpdate, hs, if_true]

/-- Witness for c5_stale_parameters at a concrete update touching
min_peak_height and maxima_window. -/
theorem c5_stale_parameters_witness :
    (persistUpdate plpBase plpTouched).filter_parameters_stale = true ∧
    (persistUpdate plpBase plpTouched).scanning_parameters_stale = true :=
  ⟨(c5_stale_parameters plpBase plpTouched).1 (Or.inl (by decide)),
   (c5_stale_parameters plpBase plpTouched).2 (Or.inr (Or.inl (by decide)))⟩

/-- The list branch of extract_ids agrees with the reference contract. -/
lemma pyIntList_spec (l : List JVal) :
    (match pyIntList l with
      | .ok ns => (.ok ns : Except GetErr (List ℤ))
      | .error .valueErr => .error .invalidInput
      | .error .typeErr => .error .typeErr) = specList l := by
  induction l with
  | nil => rfl
  | cons v rest ih =>
    cases v with
    | jint n =>
      rw [show specList (JVal.jint n :: rest) = (specList rest).map (fun ns => n :: ns) from rfl, ← ih]
      cases h : pyIntList rest with
      | ok ns => simp [pyIntList, pyInt, h, Except.map]
      | error e => cases e <;> simp [pyIntList, pyInt, h, Except.map]
    | jbool b =>
      rw [show specList (JVal.jbool b :: rest)
            = (specList rest).map (fun ns => (if b then 1 else 0) :: ns) from rfl, ← ih]
      cases h : pyIntList rest with
      | ok ns => simp [pyIntList, pyInt, h, Except.map]
      | error e => cases e <;> simp [pyIntList, pyInt, h, Except.map]
    | jstr s =>
      cases hs : s.toInt? with
      | some n =>
        rw [show specList (JVal.jstr s :: rest)
              = match s.toInt? with
                | some n => (specList rest).map (fun ns => n :: ns)
                | none => .error .invalidInput from rfl, hs, ← ih]
        cases h : pyIntList rest with
        | ok ns => simp [pyIntList, pyInt, hs, h, Except.map]
        | error e => cases e <;> simp [pyIntList, pyInt, hs, h, Except.map]
      | none =>
        rw [show specList (JVal.jstr s :: rest)
              = match s.toInt? with
                | some n => (specList rest).map (fun ns => n :: ns)
                | none => .error .invalidInput from rfl, hs]
        simp [pyIntList, pyInt, hs]
    | jnull => rfl
    | jlist l2 => rfl

/-- C6 (amended): full characterization of extract_ids against the corrected
error contract specExtract: a missing id is a key error, not the Field id not
valid failure; the invalid-input failure and the returned parsed lists are as
the amended claim describes.  Status: corrected. -/
theorem c6_extract_ids_amended (j : Option JVal) : extract_ids j = specExtract j := by
  match j with
  | none => rfl
  | some v =>
    cases v with
    | jnull => rfl
    | jbool b => rfl
    | jint n => rfl
    | jstr s =>
      show (match pyInt (.jstr s) with
        | .ok n => (.ok [n] : Except GetErr (List ℤ))
        | .error _ => .error .invalidInput) = specExtract (some (.jstr s))
      cases hs : s.toInt? <;> simp [pyInt, hs, specExtract]
    | jlist l => exact pyIntList_spec l

/-- Counterexample for C6 as stated: a payload with no id field fails with a
key-lookup error, not with the Field id not valid failure. -/
theorem c6_extract_ids_cex :
    extract_ids none = .error .keyErr ∧ GetErr.keyErr ≠ GetErr.invalidInput :=
  ⟨rfl, by decide⟩

/-- Chunks produced by subsetFuel never exceed the subset size. -/
lemma subsetFuel_chunk_le (size : ℕ) :
    ∀ (fuel : ℕ) (l : List α), ∀ c ∈ subsetFuel fuel l size, c.length ≤ size := by
  intro fuel
  induction fuel with
  | zero => intro l c hc; simp [subsetFuel] at hc
  | succ n ih =>
    intro l c hc
    cases l with
    | nil => simp [subsetFuel] at hc
    | cons x xs =>
      simp only [subsetFuel, List.mem_cons] at hc
      rcases hc with hc | hc
      · subst hc
        simp [List.length_take]
      · exact ih _ c hc

/-- With enough fuel, the chunks concatenate back to the input list. -/
lemma subsetFuel_flatten (size : ℕ) (hs : 0 < size) :
    ∀ (fuel : ℕ) (l : List α), l.length ≤ fuel → (subsetFuel fuel l size).flatten = l := by
  intro fuel
  induction fuel with
  | zero =>
    intro l hl
    have h0 : l = [] := List.length_eq_zero.mp (Nat.le_zero.mp hl)
    subst h0
    rfl
  | succ n ih =>
    intro l hl
    cases l with
    | nil => rfl
    | cons x xs =>
      simp only [subsetFuel, List.flatten_cons]
      rw [ih ((x :: xs).drop size) (by simp only [List.length_drop]; simp at hl ⊢; omega)]
      exact List.take_append_drop size (x :: xs)

/-- With enough fuel, the chunk count is the ceiling of length over size. -/
lemma subsetFuel_length (size : ℕ) (hs : 0 < size) :
    ∀ (fuel : ℕ) (l : List α), l.length ≤ fuel →
      (subsetFuel fuel l size).length = (l.length + size - 1) / size := by
  intro fuel
  induction fuel with
  | zero =>
    intro l hl
    have h0 : l = [] := List.length_eq_zero.mp (Nat.le_zero.mp hl)
    subst h0
    simp [subsetFuel, Nat.div_eq_of_lt (by omega : size - 1 < size)]
  | succ n ih =>
    intro l hl
    cases l with
    | nil => simp [subsetFuel, Nat.div_eq_of_lt (by omega : size - 1 < size)]
    | cons x xs =>
      have hpos : 0 < (x :: xs).length := by simp
      simp only [subsetFuel, List.length_cons]
      rw [ih ((x :: xs).drop size) (by simp only [List.length_drop]; simp at hl ⊢; omega)]
      simp only [List.length_drop, List.length_cons]
      have hR : xs.length + 1 + size - 1 = (xs.length + 1 - 1) + size := by omega
      rw [hR, Nat.add_div_right _ hs]
      congr 1
      rcases Nat.lt_or_ge (xs.length + 1) size with hcase | hcase
      · have h1 : xs.length + 1 - size = 0 := by omega
        rw [h1, Nat.div_eq_of_lt (by omega : 0 + size - 1 < size),
          Nat.div_eq_of_lt (by omega : xs.length + 1 - 1 < size)]
      · have h1 : xs.length + 1 - size + size - 1 = xs.length + 1 - 1 := by omega
        rw [h1]

/-- A duplicate-free list included in another is no longer than it. -/
lemma nodup_length_le (l1 l2 : List ℤ) (hnd : l1.Nodup) (hsub : ∀ x ∈ l1, x ∈ l2) :
    l1.length ≤ l2.length := by
  calc l1.length = l1.toFinset.card := (List.toFinset_card_of_nodup hnd).symm
    _ ≤ l2.toFinset.card := Finset.card_le_card (fun x hx => by
        simp only [List.mem_toFinset] at hx ⊢
        exact hsub x hx)
    _ ≤ l2.length := List.toFinset_card_le l2

/-- C7: a get request over n ids with the default subset size publishes
exactly the ceiling of n over 384 events, each carrying at most 384 rows of
a primary-keyed table; the chunks concatenate to the requested id list, so a
row is returned exactly when its id was requested.  Status: confirmed. -/
theorem c7_chunked_get (rows : List TableRow) (ids : List ℤ)
    (hnd : (rows.map TableRow.id).Nodup) :
    (base_get rows ids 384).length = (ids.length + 383) / 384
    ∧ (∀ e ∈ base_get rows ids 384, e.length ≤ 384)
    ∧ (subset ids 384).flatten = ids
    ∧ (∀ r ∈ rows, (∃ e ∈ base_get rows ids 384, r ∈ e) ↔ r.id ∈ ids) := by
  have hflat : (subset ids 384).flatten = ids :=
    subsetFuel_flatten 384 (by omega) ids.length ids le_rfl
  refine ⟨?_, ?_, hflat, ?_⟩
  · simp only [base_get, List.length_map, subset]
    exact subsetFuel_length 384 (by omega) ids.length ids le_rfl
  · intro e he
    simp only [base_get, List.mem_map] at he
    obtain ⟨c, hc, he⟩ := he
    subst he
    have h1 : ((rows.filter (fun r => decide (r.id ∈ c))).map TableRow.id).Nodup :=
      List.Nodup.sublist ((List.filter_sublist rows).map TableRow.id) hnd
    have h2 : ∀ x ∈ (rows.filter (fun r => decide (r.id ∈ c))).map TableRow.id, x ∈ c := by
      intro x hx
      simp only [List.mem_map, List.mem_filter, decide_eq_true_eq] at hx
      obtain ⟨r, ⟨_, hr2⟩, hx⟩ := hx
      exact hx ▸ hr2
    calc (rows.filter (fun r => decide (r.id ∈ c))).length
        = ((rows.filter (fun r => decide (r.id ∈ c))).map TableRow.id).length := by
          simp
      _ ≤ c.length := nodup_length_le _ _ h1 h2
      _ ≤ 384 := subsetFuel_chunk_le 384 ids.length ids c hc
  · intro r hr
    constructor
    · rintro ⟨e, he, hre⟩
      simp only [base_get, List.mem_map] at he
      obtain ⟨c, hc, he⟩ := he
      subst he
      have := (List.mem_filter.mp hre).2
      simp only [decide_eq_true_eq] at this
      rw [← hflat]
      exact List.mem_flatten.mpr ⟨c, hc, this⟩
    · intro hid
      rw [← hflat] at hid
      obtain ⟨c, hc, hxc⟩ := List.mem_flatten.mp hid
      exact ⟨rows.filter (fun r => decide (r.id ∈ c)), List.mem_map.mpr ⟨c, hc, rfl⟩,
        List.mem_filter.mpr ⟨hr, by simpa using hxc⟩⟩

/-- Witness for c7_chunked_get at a concrete three-row table and a
three-id request. -/
theorem c7_chunked_get_witness :
    (base_get rowsFix idsFix 384).length = (idsFix.length + 383) / 384
    ∧ (∀ e ∈ base_get rowsFix idsFix 384, e.length ≤ 384)
    ∧ (subset idsFix 384).flatten = idsFix
    ∧ (∀ r ∈ rowsFix, (∃ e ∈ base_get rowsFix idsFix 384, r ∈ e) ↔ r.id ∈ idsFix) :=
  c7_chunked_get rowsFix idsFix (by decide)

/-- Segment bounds after a refit are exactly the requested parameter sets. -/
lemma segmentBounds_generate (fit : ArtifactParamSet → FitCoeffs)
    (est : ArtifactEstimatorState) (psets : List ArtifactParamSet) :
    segmentBounds (generate_estimating_equations fit est psets)
      = psets.map (fun ps => (ps.start_size, ps.end_size)) := by
  simp only [segmentBounds, generate_estimating_equations, List.map_map]
  rfl

/-- C8: when exactly one equation segment strictly contains the breakpoint,
add_breakpoint replaces it by its two halves at the breakpoint and leaves all
other segment bounds unchanged; clear_breakpoints afterwards restores a
single segment spanning the locus range.  Status: confirmed. -/
theorem c8_add_breakpoint (fit : ArtifactParamSet → FitCoeffs)
    (est : ArtifactEstimatorState) (b minL maxL : ℚ)
    (pre post : List ArtifactEquation) (e0 : ArtifactEquation)
    (h1 : est.artifact_equations = pre ++ e0 :: post)
    (h2 : e0.start_size < b) (h3 : b < e0.end_size)
    (h4 : ∀ e ∈ pre, ¬(e.start_size < b ∧ b < e.end_size))
    (h5 : ∀ e ∈ post, ¬(e.start_size < b ∧ b < e.end_size)) :
    segmentBounds (add_breakpoint fit est b)
      = pre.map (fun e => (e.start_size, e.end_size))
        ++ (e0.start_size, b) :: (b, e0.end_size) :: post.map (fun e => (e.start_size, e.end_size))
    ∧ segmentBounds (clear_breakpoints fit (add_breakpoint fit est b) minL maxL)
      = [(minL, maxL)] := by
  constructor
  · simp only [add_breakpoint, segmentBounds_generate, h1, List.map_append, List.map_cons,
      List.flatten_append, List.flatten_cons]
    rw [if_pos ⟨h2, h3⟩]
    have hpre : (pre.map (fun eq => ArtifactParamSet.mk eq.start_size eq.end_size)).map
        (fun ps => if ps.start_size < b ∧ b < ps.end_size then
          [ArtifactParamSet.mk ps.start_size b, ArtifactParamSet.mk b ps.end_size]
        else [ps])
        = pre.map (fun e => [ArtifactParamSet.mk e.start_size e.end_size]) := by
      rw [List.map_map]
      refine List.map_congr_left (fun e he => ?_)
      simp only [Function.comp]
      rw [if_neg (h4 e he)]
    have hpost : (post.map (fun eq => ArtifactParamSet.mk eq.start_size eq.end_size)).map
        (fun ps => if ps.start_size < b ∧ b < ps.end_size then
          [ArtifactParamSet.mk ps.start_size b, ArtifactParamSet.mk b ps.end_size]
        else [ps])
        = post.map (fun e => [ArtifactParamSet.mk e.start_size e.end_size]) := by
      rw [List.map_map]
      refine List.map_congr_left (fun e he => ?_)
      simp only [Function.comp]
      rw [if_neg (h5 e he)]
    rw [hpre, hpost, flatten_map_singleton, flatten_map_singleton]
    simp only [List.map_map]
    rfl
  · simp [clear_breakpoints, segmentBounds_generate]

/-- Witness for c8_add_breakpoint: the single full-range segment 10..100 is
split at 50 and restored by clear_breakpoints. -/
theorem c8_add_breakpoint_witness :
    segmentBounds (add_breakpoint fitFix estFix 50)
      = ([] : List ArtifactEquation).map (fun e => (e.start_size, e.end_size))
        ++ (eqnFix.start_size, 50) :: (50, eqnFix.end_size)
          :: ([] : List ArtifactEquation).map (fun e => (e.start_size, e.end_size))
    ∧ segmentBounds (clear_breakpoints fitFix (add_breakpoint fitFix estFix 50) 10 100)
      = [(10, 100)] :=
  c8_add_breakpoint fitFix estFix 50 10 100 [] [] eqnFix rfl (by decide) (by decide)
    (by intro e he; simp at he) (by intro e he; simp at he)

/-- bestStep never yields none. -/
lemma bestStep_ne_none (lp : GenotypingLocusParams) (acc : Option ChAnnot) (x : ChAnnot) :
    bestStep lp acc x ≠ none := by
  cases acc with
  | none => simp [bestStep]
  | some b =>
    simp only [bestStep]
    split <;> simp

/-- The selection fold yields none exactly from an empty candidate list. -/
lemma foldl_bestStep_none (lp : GenotypingLocusParams) :
    ∀ (l : List ChAnnot) (acc : Option ChAnnot),
      l.foldl (bestStep lp) acc = none ↔ acc = none ∧ l = [] := by
  intro l
  induction l with
  | nil => intro acc; simp
  | cons x t ih =>
    intro acc
    rw [List.foldl_cons, ih]
    constructor
    · rintro ⟨h1, -⟩
      exact absurd h1 (bestStep_ne_none lp acc x)
    · rintro ⟨-, h2⟩
      cases h2

/-- The selection fold returns a candidate maximal for bestPeakHeight. -/
lemma foldl_bestStep_spec (lp : GenotypingLocusParams) :
    ∀ (l : List ChAnnot) (acc : Option ChAnnot) (b : ChAnnot),
      l.foldl (bestStep lp) acc = some b →
      (b ∈ l ∨ acc = some b)
      ∧ (∀ x ∈ l, bestPeakHeight lp x ≤ bestPeakHeight lp b)
      ∧ (∀ a0, acc = some a0 → bestPeakHeight lp a0 ≤ bestPeakHeight lp b) := by
  intro l
  induction l with
  | nil =>
    intro acc b h
    simp only [List.foldl_nil] at h
    refine ⟨Or.inr h, by simp, fun a0 ha => ?_⟩
    rw [ha] at h
    injection h with h
    rw [h]
  | cons x t ih =>
    intro acc b h
    rw [List.foldl_cons] at h
    obtain ⟨hmem, hall, hacc⟩ := ih (bestStep lp acc x) b h
    have hx : bestPeakHeight lp x ≤ bestPeakHeight lp b := by
      cases hacc2 : acc with
      | none => exact hacc x (by rw [hacc2]; rfl)
      | some b2 =>
        by_cases hlt : bestPeakHeight lp b2 < bestPeakHeight lp x
        · exact hacc x (by rw [hacc2]; simp [bestStep, hlt])
        · have hb2 : bestPeakHeight lp b2 ≤ bestPeakHeight lp b :=
            hacc b2 (by rw [hacc2]; simp [bestStep, hlt])
          exact le_trans (le_of_not_lt hlt) hb2
    refine ⟨?_, ?_, ?_⟩
    · rcases hmem with hm | hm
      · exact Or.inl (List.mem_cons_of_mem x hm)
      · cases hacc2 : acc with
        | none =>
          rw [hacc2] at hm
          have hxb : x = b := by
            have : some x = some b := hm
            injection this
          exact Or.inl (hxb ▸ List.mem_cons_self x t)
        | some b2 =>
          rw [hacc2] at hm
          by_cases hlt : bestPeakHeight lp b2 < bestPeakHeight lp x
          · have hstep : bestStep lp (some b2) x = some x := by simp [bestStep, hlt]
            rw [hstep] at hm
            injection hm with hxb
            exact Or.inl (hxb ▸ List.mem_cons_self x t)
          · have hstep : bestStep lp (some b2) x = some b2 := by simp [bestStep, hlt]
            rw [hstep] at hm
            injection hm with hxb
            exact Or.inr (by rw [hxb])
    · intro y hy
      rcases List.mem_cons.mp hy with hy | hy
      · exact hy ▸ hx
      · exact hall y hy
    · intro a0 ha0
      by_cases hlt : bestPeakHeight lp a0 < bestPeakHeight lp x
      · exact le_trans (le_of_lt hlt) hx
      · exact hacc a0 (by rw [ha0]; simp [bestStep, hlt])

/-- C3: get_best_run never returns an annotation whose well sizing quality is
at or above the ladder's unusable limit; any returned annotation matches the
requested sample and locus and maximizes the best qualifying peak height over
all qualifying candidates, and none is returned only when no candidate
qualifies.  Status: confirmed. -/
theorem c3_get_best_run (lp : GenotypingLocusParams) (cas : List ChAnnot)
    (sample locus : ℕ) :
    (∀ ca, get_best_run lp cas sample locus = some ca →
      ca.sizing_quality < ca.unusable_sq_limit ∧ ca ∈ cas ∧
      ca.sample_id = sample ∧ ca.locus_id = locus ∧
      ∀ x ∈ cas, x.sample_id = sample → x.locus_id = locus →
        x.sizing_quality < x.unusable_sq_limit →
        bestPeakHeight lp x ≤ bestPeakHeight lp ca)
    ∧ (get_best_run lp cas sample locus = none ↔
        ∀ x ∈ cas, ¬(x.sample_id = sample ∧ x.locus_id = locus ∧
          x.sizing_quality < x.unusable_sq_limit)) := by
  have hmem2 : ∀ x : ChAnnot,
      x ∈ (cas.filter (fun x => decide (x.sample_id = sample) && decide (x.locus_id = locus))).filter
        (fun x => decide (x.sizing_quality < x.unusable_sq_limit)) ↔
      x ∈ cas ∧ x.sample_id = sample ∧ x.locus_id = locus ∧
        x.sizing_quality < x.unusable_sq_limit := by
    intro x
    simp only [List.mem_filter, Bool.and_eq_true, decide_eq_true_eq]
    tauto
  constructor
  · intro ca hca
    simp only [get_best_run] at hca
    obtain ⟨hm, hall, -⟩ := foldl_bestStep_spec lp _ none ca hca
    rcases hm with hm | hm
    · have hprops := (hmem2 ca).mp hm
      refine ⟨hprops.2.2.2, hprops.1, hprops.2.1, hprops.2.2.1, ?_⟩
      intro x hx hs hl hq
      exact hall x ((hmem2 x).mpr ⟨hx, hs, hl, hq⟩)
    · exact absurd hm (by simp)
  · simp only [get_best_run]
    rw [foldl_bestStep_none]
    simp only [true_and]
    rw [List.eq_nil_iff_forall_not_mem]
    constructor
    · intro h x hx hcond
      exact h x ((hmem2 x).mpr ⟨hx, hcond.1, hcond.2.1, hcond.2.2⟩)
    · intro h x hx
      have hprops := (hmem2 x).mp hx
      exact h x hprops.1 ⟨hprops.2.1, hprops.2.2.1, hprops.2.2.2⟩

/-- Witness for c3_get_best_run: of two runs for (sample 1, locus 2), the one
at the unusable limit is never chosen even with a taller peak. -/
theorem c3_get_best_run_witness :
    caGoodFix.sizing_quality < caGoodFix.unusable_sq_limit ∧ caGoodFix ∈ casFix ∧
    caGoodFix.sample_id = 1 ∧ caGoodFix.locus_id = 2 ∧
    ∀ x ∈ casFix, x.sample_id = 1 → x.locus_id = 2 →
      x.sizing_quality < x.unusable_sq_limit →
      bestPeakHeight lpFix x ≤ bestPeakHeight lpFix caGoodFix :=
  (c3_get_best_run lpFix casFix 1 2).1 caGoodFix (by decide)

/-- The locus annotation produced by analyze_samples at a position whose
sample and locus have a best run. -/
lemma analyze_samples_get (lp : GenotypingLocusParams) (cas : List ChAnnot) (locus : ℕ)
    (annots : List SLAnnot) (i : ℕ) (hi : i < annots.length) (ca : ChAnnot)
    (hloc : (annots.get ⟨i, hi⟩).locus_id = locus)
    (hbest : get_best_run lp cas (annots.get ⟨i, hi⟩).sample_id
      (annots.get ⟨i, hi⟩).locus_id = some ca)
    (hi2 : i < (analyze_samples lp cas locus annots).length) :
    (analyze_samples lp cas locus annots).get ⟨i, hi2⟩
      = processAnnot lp (some ca) (annots.get ⟨i, hi⟩) := by
  simp only [List.get_eq_getElem] at hloc hbest
  simp only [analyze_samples, List.get_eq_getElem, List.getElem_map]
  rw [if_pos hloc, hbest]

/-- C4: after analyze_samples, an annotation with a best run is flagged as a
failure exactly when none of its annotated peaks exceeds failure_threshold,
and a failed annotation has every allele entry false regardless of bin
membership.  Status: confirmed. -/
theorem c4_failure_flag (lp : GenotypingLocusParams) (cas : List ChAnnot) (locus : ℕ)
    (annots : List SLAnnot) (i : ℕ) (hi : i < annots.length) (ca : ChAnnot)
    (hloc : (annots.get ⟨i, hi⟩).locus_id = locus)
    (hbest : get_best_run lp cas (annots.get ⟨i, hi⟩).sample_id
      (annots.get ⟨i, hi⟩).locus_id = some ca)
    (hi2 : i < (analyze_samples lp cas locus annots).length) :
    (((analyze_samples lp cas locus annots).get ⟨i, hi2⟩).failure = true ↔
      ∀ p ∈ ((analyze_samples lp cas locus annots).get ⟨i, hi2⟩).annotated_peaks,
        ¬ lp.failure_threshold < p.peak_height)
    ∧ (((analyze_samples lp cas locus annots).get ⟨i, hi2⟩).failure = true →
        ∀ kv ∈ ((analyze_samples lp cas locus annots).get ⟨i, hi2⟩).alleles, kv.2 = false) := by
  rw [analyze_samples_get lp cas locus annots i hi ca hloc hbest hi2]
  constructor
  · simp only [processAnnot]
    rw [Bool.not_eq_true']
    rw [List.any_eq_false]
    simp only [decide_eq_true_eq]
  · intro hf kv hkv
    simp only [processAnnot] at hf hkv
    rw [Bool.not_eq_true'] at hf
    rw [if_neg (by simp [hf])] at hkv
    obtain ⟨kv0, -, hkv0⟩ := List.mem_map.mp hkv
    rw [← hkv0]

/-- Witness for c4_failure_flag at the fixture project: the best run has a
1000-high peak, so the annotation is not failed. -/
theorem c4_failure_flag_witness :
    (((analyze_samples lpFix casFix 2 annotsFix).get ⟨0, by decide⟩).failure = true ↔
      ∀ p ∈ ((analyze_samples lpFix casFix 2 annotsFix).get ⟨0, by decide⟩).annotated_peaks,
        ¬ lpFix.failure_threshold < p.peak_height)
    ∧ (((analyze_samples lpFix casFix 2 annotsFix).get ⟨0, by decide⟩).failure = true →
        ∀ kv ∈ ((analyze_samples lpFix casFix 2 annotsFix).get ⟨0, by decide⟩).alleles,
          kv.2 = false) :=
  c4_failure_flag lpFix casFix 2 annotsFix 0 (by decide) caGoodFix (by decide) (by decide)
    (by decide)

/-- C9: analyze_samples unconditionally rebuilds each copied peak's flags
sub-map from the current thresholds and clears the annotation's
manual_curation flag, so any prior manual-curation mark is erased whatever
the annotation previously held.  Status: confirmed. -/
theorem c9_manual_curation_erased (lp : GenotypingLocusParams) (cas : List ChAnnot)
    (locus : ℕ) (annots : List SLAnnot) (i : ℕ) (hi : i < annots.length) (ca : ChAnnot)
    (hloc : (annots.get ⟨i, hi⟩).locus_id = locus)
    (hbest : get_best_run lp cas (annots.get ⟨i, hi⟩).sample_id
      (annots.get ⟨i, hi⟩).locus_id = some ca)
    (hi2 : i < (analyze_samples lp cas locus annots).length) :
    ((analyze_samples lp cas locus annots).get ⟨i, hi2⟩).manual_curation = false
    ∧ ((analyze_samples lp cas locus annots).get ⟨i, hi2⟩).annotated_peaks
        = ca.annotated_peaks.map (computePeakFlags lp) := by
  rw [analyze_samples_get lp cas locus annots i hi ca hloc hbest hi2]
  exact ⟨rfl, rfl⟩

/-- Witness for c9_manual_curation_erased: the fixture annotation carried
manual_curation = true beforehand, and the run erases it. -/
theorem c9_manual_curation_erased_witness :
    ((analyze_samples lpFix casFix 2 annotsFix).get ⟨0, by decide⟩).manual_curation = false
    ∧ ((analyze_samples lpFix casFix 2 annotsFix).get ⟨0, by decide⟩).annotated_peaks
        = caGoodFix.annotated_peaks.map (computePeakFlags lpFix) :=
  c9_manual_curation_erased lpFix casFix 2 annotsFix 0 (by decide) caGoodFix (by decide)
    (by decide) (by decide)

/-- The last element with a default is a member of any nonempty list. -/
lemma getLastD_mem : ∀ (l : List ℕ) (d : ℕ), l ≠ [] → l.getLastD d ∈ l := by
  intro l
  induction l with
  | nil => intro d h; exact absurd rfl h
  | cons x t ih =>
    intro d h
    cases ht : t with
    | nil =>
      subst ht
      simp [List.getLastD]
    | cons y u =>
      subst ht
      rw [List.getLastD_cons]
      exact List.mem_cons_of_mem x (ih x (by simp))

/-- The first scan loop of find_max_data_point succeeds when every ladder
peak index is in range and some ladder peak sizes at or above the locus
minimum. -/
lemma findJ_ok : ∀ (l : List ℕ) (bs : List ℚ) (minL : ℚ) (j : ℕ),
    (∀ k ∈ l, k < bs.length) →
    (∃ k, ∃ _ : k ∈ l, ∃ hk : k < bs.length, ¬ bs.get ⟨k, hk⟩ < minL) →
    ∃ r, findJ bs minL l j = .ok r ∧ j ≤ r ∧ r - j < l.length := by
  intro l
  induction l with
  | nil =>
    intro bs minL j _ hex
    obtain ⟨k, hmem, -⟩ := hex
    simp at hmem
  | cons k0 rest ih =>
    intro bs minL j hall hex
    have hk0 : k0 < bs.length := hall k0 (List.mem_cons_self k0 rest)
    simp only [findJ, dif_pos hk0]
    by_cases hlt : bs.get ⟨k0, hk0⟩ < minL
    · rw [if_pos hlt]
      have hex2 : ∃ k, ∃ _ : k ∈ rest, ∃ hk : k < bs.length, ¬ bs.get ⟨k, hk⟩ < minL := by
        obtain ⟨k, hmem, hk, hge⟩ := hex
        rcases List.mem_cons.mp hmem with he | he
        · subst he
          exact absurd hlt hge
        · exact ⟨k, he, hk, hge⟩
      obtain ⟨r, hr, hjr, hlen⟩ :=
        ih bs minL (j + 1) (fun k hk => hall k (List.mem_cons_of_mem k0 hk)) hex2
      refine ⟨r, hr, by omega, ?_⟩
      simp only [List.length_cons]
      omega
    · rw [if_neg hlt]
      exact ⟨j, rfl, le_refl j, by simp⟩

/-- The loop body read of find_max_data_point stays in range when both lists
are long enough. -/
lemma readStep_ok (bs data : List ℚ) (minL : ℚ) (i : ℕ) (m : ℚ)
    (hi : i < bs.length) (hd : i < data.length) :
    ∃ v, readStep bs data minL i m = .ok v := by
  simp only [readStep, dif_pos hi]
  by_cases h1 : minL < bs.get ⟨i, hi⟩
  · rw [if_pos h1]
    simp only [dif_pos hd]
    exact ⟨_, rfl⟩
  · rw [if_neg h1]
    exact ⟨m, rfl⟩

/-- The second scan loop of find_max_data_point succeeds when some in-range
index at or past the start sizes at or above the locus maximum and the trace
is as long as the size array. -/
lemma scanLoop_ok (bs data : List ℚ) (minL maxL : ℚ) (hdata : data.length = bs.length) :
    ∀ (fuel i : ℕ) (m : ℚ) (stop : ℕ) (hstop : stop < bs.length),
      i ≤ stop → ¬ bs.get ⟨stop, hstop⟩ < maxL → stop - i < fuel →
      ∃ m2, scanLoop bs data minL maxL fuel i m = .ok m2 := by
  intro fuel
  induction fuel with
  | zero =>
    intro i m stop hstop hle hge hf
    omega
  | succ n ih =>
    intro i m stop hstop hle hge hf
    have hi : i < bs.length := lt_of_le_of_lt hle hstop
    simp only [scanLoop, dif_pos hi]
    by_cases hc : bs.get ⟨i, hi⟩ < maxL
    · rw [if_pos hc]
      have hne : i ≠ stop := by
        intro he
        subst he
        exact hge hc
      have hi1 : i + 1 ≤ stop := by omega
      have hi1b : i + 1 < bs.length := lt_of_le_of_lt hi1 hstop
      obtain ⟨v, hv⟩ := readStep_ok bs data minL (i + 1) m hi1b (by omega)
      rw [hv]
      exact ih (i + 1) v stop hstop hi1 hge (by omega)
    · rw [if_neg hc]
      exact ⟨m, rfl⟩

/-- C10 (amended): find_max_data_point terminates without any out-of-range
access of base_sizes, ladder_peak_indices, or data provided that every ladder
peak index is within base_sizes, some ladder peak sizes at or above the locus
minimum, the last base size reaches the locus maximum, and the trace is as
long as base_sizes.  Status: corrected (the claim as stated fails, see the
counterexample). -/
theorem c10_find_max_data_point_amended (ch : TraceChannel) (locus : LocusRange)
    (hl : ch.locus = some locus)
    (hne : ch.well.ladder_peak_indices ≠ [])
    (hidx : ∀ k ∈ ch.well.ladder_peak_indices, k < ch.well.base_sizes.length)
    (hmin : ∃ k, ∃ _ : k ∈ ch.well.ladder_peak_indices,
      ∃ hk : k < ch.well.base_sizes.length,
        locus.min_base_length ≤ ch.well.base_sizes.get ⟨k, hk⟩)
    (hlast : ∃ hbs : ch.well.base_sizes ≠ [],
      locus.max_base_length ≤ ch.well.base_sizes.getLast hbs)
    (hdata : ch.data.length = ch.well.base_sizes.length) :
    ∃ ch2, find_max_data_point ch = .ok ch2 := by
  obtain ⟨hbs, hmaxL⟩ := hlast
  have hbslen : 0 < ch.well.base_sizes.length := List.length_pos.mpr hbs
  have hlpi : ¬ ch.well.ladder_peak_indices.isEmpty = true := by
    simp only [List.isEmpty_iff]
    exact hne
  simp only [find_max_data_point, hl]
  rw [if_neg hlpi]
  set L := ch.well.ladder_peak_indices.insertionSort (· ≤ ·) with hL
  have hperm : List.Perm L ch.well.ladder_peak_indices := by
    rw [hL]
    exact List.perm_insertionSort _ _
  have hlpine : L ≠ [] := by
    intro h0
    rw [h0] at hperm
    exact hne hperm.symm.eq_nil
  have hall2 : ∀ k ∈ L, k < ch.well.base_sizes.length :=
    fun k hk => hidx k (hperm.subset hk)
  have hex3 : ∃ k, ∃ _ : k ∈ L, ∃ hk : k < ch.well.base_sizes.length,
      ¬ ch.well.base_sizes.get ⟨k, hk⟩ < locus.min_base_length := by
    obtain ⟨k, hmem, hk, hge⟩ := hmin
    exact ⟨k, hperm.mem_iff.mpr hmem, hk, not_lt.mpr hge⟩
  obtain ⟨r, hr, -, hrlen⟩ := findJ_ok L ch.well.base_sizes locus.min_base_length 0 hall2 hex3
  rw [hr]
  simp only [Except.bind]
  have hi0mem : (if r = 0 then L.getLastD 0 else L.getD (r - 1) 0) ∈ L := by
    split
    · exact getLastD_mem L 0 hlpine
    · have hr1 : r - 1 < L.length := by omega
      rw [List.getD_eq_get L _ hr1]
      exact List.get_mem L _ _
  have hi0lt : (if r = 0 then L.getLastD 0 else L.getD (r - 1) 0)
      < ch.well.base_sizes.length := hall2 _ hi0mem
  have hstoplt : ch.well.base_sizes.length - 1 < ch.well.base_sizes.length := by omega
  have hstopge : ¬ ch.well.base_sizes.get ⟨ch.well.base_sizes.length - 1, hstoplt⟩
      < locus.max_base_length := by
    refine not_lt.mpr ?_
    rw [← List.getLast_eq_get ch.well.base_sizes hbs]
    exact hmaxL
  obtain ⟨m2, hm2⟩ := scanLoop_ok ch.well.base_sizes ch.data locus.min_base_length
    locus.max_base_length hdata (ch.well.base_sizes.length + 1)
    (if r = 0 then L.getLastD 0 else L.getD (r - 1) 0)
    ch.max_data_point (ch.well.base_sizes.length - 1) hstoplt (by omega) hstopge (by omega)
  rw [hm2]
  exact ⟨_, rfl⟩

/-- Counterexample for C10 as stated: this channel has an assigned locus and
a non-empty ladder_peak_indices, yet find_max_data_point runs past the end of
ladder_peak_indices (a Python IndexError) because every ladder peak sizes
below the locus minimum. -/
theorem c10_find_max_data_point_cex :
    cexChannel.locus ≠ none ∧ cexChannel.well.ladder_peak_indices ≠ []
    ∧ find_max_data_point cexChannel = .error () := by
  refine ⟨by simp [cexChannel], by simp [cexChannel], ?_⟩
  rfl

/-- Witness for c10_find_max_data_point_amended at a channel meeting all the
range conditions. -/
theorem c10_find_max_data_point_witness :
    ∃ ch2, find_max_data_point okChannel = .ok ch2 :=
  c10_find_max_data_point_amended okChannel { min_base_length := 1, max_base_length := 5 }
    rfl (by simp [okChannel]) (by decide)
    ⟨0, by decide, by decide, by decide⟩
    ⟨by simp [okChannel], by decide⟩
    (by decide)

/-- Mapping preserves list emptiness. -/
lemma isEmpty_map (f : α → β) (l : List α) : (l.map f).isEmpty = l.isEmpty := by
  cases l <;> rfl

/-- Probability initialization leaves the possible-artifact test unchanged. -/
lemma heightCond_initPeakProb (lp : GenotypingLocusParams) (p : Peak) :
    heightCond lp (initPeakProb p) = heightCond lp p := by
  unfold initPeakProb
  split <;> rfl

/-- Probability initialization keeps the bin flag. -/
lemma in_bin_initPeakProb (p : Peak) : (initPeakProb p).in_bin = p.in_bin := by
  unfold initPeakProb
  split <;> rfl

/-- Probability initialization keeps the flag sub-map. -/
lemma anyFlagTrue_initPeakProb (p : Peak) : anyFlagTrue (initPeakProb p) = anyFlagTrue p := by
  unfold initPeakProb anyFlagTrue
  split <;> rfl

/-- Probability initialization keeps the locus id. -/
lemma locus_id_initAnnotProbs (a : SLAnnot) : (initAnnotProbs a).locus_id = a.locus_id := by
  unfold initAnnotProbs
  split <;> rfl

/-- Probability initialization keeps the non-failed test. -/
lemma nonFailed_initAnnotProbs (a : SLAnnot) : nonFailed (initAnnotProbs a) = nonFailed a := by
  unfold initAnnotProbs
  split
  · simp [nonFailed, isEmpty_map]
  · rfl

/-- The allele rebuild touches only the allele map. -/
lemma annotated_peaks_rebuildAlleles (th : ℚ) (a : SLAnnot) :
    (rebuildAlleles th a).annotated_peaks = a.annotated_peaks := by
  unfold rebuildAlleles
  split <;> rfl

/-- The allele rebuild keeps the non-failed test. -/
lemma nonFailed_rebuildAlleles (th : ℚ) (a : SLAnnot) :
    nonFailed (rebuildAlleles th a) = nonFailed a := by
  unfold rebuildAlleles nonFailed
  split <;> rfl

/-- A cycle leaves an annotation untouched and reports no change when none of
its peaks passes the possible-artifact test. -/
lemma updateAnnotCycle_no_possible (th : ℚ) (lp : GenotypingLocusParams)
    (freq : Option ℕ → ℚ) (moi : ℕ) (a : SLAnnot)
    (h : nonFailed a = true → ∀ p ∈ a.annotated_peaks, heightCond lp p = false) :
    updateAnnotCycle th lp freq moi a = (a, false) := by
  simp only [updateAnnotCycle]
  split
  case isTrue hnf =>
    have hposs : (a.annotated_peaks.filter
        (fun p => decide (th < p.probability))).filter (fun p => heightCond lp p) = [] := by
      rw [List.filter_eq_nil]
      intro p hp
      rw [h hnf p (List.mem_of_mem_filter hp)]
      simp
    rw [hposs]
    simp only [List.map_nil, List.any_nil]
    have hcong : ∀ p ∈ a.annotated_peaks,
        (if decide (th < p.probability) && heightCond lp p then
          { p with probability := lastAssocD [] p.peak_index p.probability }
        else p) = p := by
      intro p hp
      rw [h hnf p hp]
      simp
    rw [List.map_congr_left hcong, List.map_id']
  case isFalse => rfl

/-- A cycle over a sample with no possible-artifact peaks only refreshes its
MOI. -/
lemma updateSampleCycle_no_possible (th : ℚ) (lps : ℕ → GenotypingLocusParams)
    (freq : ℕ → Option ℕ → ℚ) (sa : PSAnnot)
    (h : ∀ a ∈ sa.locus_annots, nonFailed a = true →
      ∀ p ∈ a.annotated_peaks, heightCond (lps a.locus_id) p = false) :
    updateSampleCycle th lps freq sa = ({ sa with moi := moiOf th sa }, false) := by
  simp only [updateSampleCycle]
  have hmap : sa.locus_annots.map (fun a =>
      updateAnnotCycle th (lps a.locus_id) (freq a.locus_id) (moiOf th sa) a)
      = sa.locus_annots.map (fun a => (a, false)) :=
    List.map_congr_left (fun a ha =>
      updateAnnotCycle_no_possible th (lps a.locus_id) (freq a.locus_id) (moiOf th sa) a (h a ha))
  rw [hmap]
  have h1 : (sa.locus_annots.map (fun a => (a, false))).map Prod.fst = sa.locus_annots := by
    rw [List.map_map]
    exact List.map_id' sa.locus_annots
  have h2 : (sa.locus_annots.map (fun a => (a, false))).any Prod.snd = false := by
    rw [List.any_eq_false]
    intro x hx
    obtain ⟨y, -, hy⟩ := List.mem_map.mp hx
    rw [← hy]
    simp
  rw [h1, h2]

/-- One full cycle over a project with no possible-artifact peaks reports no
change and only refreshes the MOI estimates. -/
lemma oneCycle_no_possible (st : GPState)
    (h : ∀ sa ∈ st.sample_annots, ∀ a ∈ sa.locus_annots, nonFailed a = true →
      ∀ p ∈ a.annotated_peaks, heightCond (st.locus_params a.locus_id) p = false) :
    oneCycle st = ({ st with
        sample_annots := st.sample_annots.map
          (fun sa => { sa with moi := moiOf st.probability_threshold sa }) }, false) := by
  simp only [oneCycle]
  have hmap : st.sample_annots.map (updateSampleCycle st.probability_threshold st.locus_params
      (fun locus bin => alleleFrequency st.probability_threshold (allAnnots st) locus bin))
      = st.sample_annots.map (fun sa =>
        ({ sa with moi := moiOf st.probability_threshold sa }, false)) :=
    List.map_congr_left (fun sa hsa =>
      updateSampleCycle_no_possible st.probability_threshold st.locus_params _ sa (h sa hsa))
  rw [hmap]
  have h1 : (st.sample_annots.map (fun sa =>
      ({ sa with moi := moiOf st.probability_threshold sa }, false))).map Prod.fst
      = st.sample_annots.map (fun sa => { sa with moi := moiOf st.probability_threshold sa }) := by
    rw [List.map_map]
    rfl
  have h2 : (st.sample_annots.map (fun sa =>
      ({ sa with moi := moiOf st.probability_threshold sa }, false))).any Prod.snd = false := by
    rw [List.any_eq_false]
    intro x hx
    obtain ⟨y, -, hy⟩ := List.mem_map.mp hx
    rw [← hy]
    simp
  rw [h1, h2]

/-- Probability initialization maps the peaks of a non-failed annotation. -/
lemma annotated_peaks_initAnnotProbs (a : SLAnnot) (h : nonFailed a = true) :
    (initAnnotProbs a).annotated_peaks = a.annotated_peaks.map initPeakProb := by
  unfold initAnnotProbs
  rw [if_pos h]

/-- An in-bin, unflagged peak is initialized to probability 1. -/
lemma initPeakProb_probability (p : Peak) (h : (p.in_bin && !anyFlagTrue p) = true) :
    (initPeakProb p).probability = 1 := by
  unfold initPeakProb
  rw [if_pos h]

/-- C2: when no peak of any non-failed annotation satisfies the
possible-artifact condition, probabilistic_peak_annotation converges after
exactly one refinement cycle within any fuel bound, and every in-bin peak
with no true flag of a non-failed annotation ends with probability 1.
Status: confirmed. -/
theorem c2_ppa_converges_one_cycle (st : GPState) (fuel : ℕ) (hf : 1 ≤ fuel)
    (h : ∀ sa ∈ st.sample_annots, ∀ a ∈ sa.locus_annots, nonFailed a = true →
      ∀ p ∈ a.annotated_peaks, heightCond (st.locus_params a.locus_id) p = false) :
    (probabilistic_peak_annot fuel st).2.1 = 1
    ∧ (probabilistic_peak_annot fuel st).2.2 = true
    ∧ ∀ sa ∈ (probabilistic_peak_annot fuel st).1.sample_annots,
        ∀ a ∈ sa.locus_annots, nonFailed a = true →
        ∀ p ∈ a.annotated_peaks, (p.in_bin && !anyFlagTrue p) = true → p.probability = 1 := by
  obtain ⟨n, rfl⟩ : ∃ n, fuel = n + 1 := ⟨fuel - 1, by omega⟩
  have h0 : ∀ sa ∈ (initProbabilities st).sample_annots, ∀ a ∈ sa.locus_annots,
      nonFailed a = true → ∀ p ∈ a.annotated_peaks,
      heightCond ((initProbabilities st).locus_params a.locus_id) p = false := by
    intro sa hsa a ha hnf p hp
    simp only [initProbabilities, List.mem_map] at hsa
    obtain ⟨sa0, hsa0, hsa0e⟩ := hsa
    rw [← hsa0e] at ha
    simp only [List.mem_map] at ha
    obtain ⟨a0, ha0, ha0e⟩ := ha
    rw [← ha0e] at hnf hp
    rw [nonFailed_initAnnotProbs] at hnf
    rw [annotated_peaks_initAnnotProbs a0 hnf, List.mem_map] at hp
    obtain ⟨p0, hp0, hp0e⟩ := hp
    rw [← hp0e, ← ha0e]
    rw [locus_id_initAnnotProbs, heightCond_initPeakProb]
    exact h sa0 hsa0 a0 ha0 hnf p0 hp0
  have hc := oneCycle_no_possible (initProbabilities st) h0
  have hrun : runCycles (n + 1) (initProbabilities st)
      = ((oneCycle (initProbabilities st)).1, 1, true) := by
    simp only [runCycles, hc]
    simp
  refine ⟨?_, ?_, ?_⟩
  · simp only [probabilistic_peak_annot, hrun]
  · simp only [probabilistic_peak_annot, hrun]
  · intro sa hsa a ha hnf p hp hcond
    rw [show (probabilistic_peak_annot (n + 1) st).1
        = { (oneCycle (initProbabilities st)).1 with
            sample_annots := (oneCycle (initProbabilities st)).1.sample_annots.map (fun sa =>
              { sa with
                  locus_annots := sa.locus_annots.map
                    (rebuildAlleles (oneCycle (initProbabilities st)).1.probability_threshold) }) }
      from by simp only [probabilistic_peak_annot, hrun]] at hsa
    rw [hc] at hsa
    simp only [initProbabilities, List.map_map, List.mem_map, Function.comp_def] at hsa
    obtain ⟨sa0, hsa0, hsa0e⟩ := hsa
    rw [← hsa0e] at ha
    simp only [List.map_map, List.mem_map, Function.comp_def] at ha
    obtain ⟨a0, ha0, ha0e⟩ := ha
    rw [← ha0e] at hnf hp
    rw [nonFailed_rebuildAlleles, nonFailed_initAnnotProbs] at hnf
    rw [annotated_peaks_rebuildAlleles, annotated_peaks_initAnnotProbs a0 hnf,
      List.mem_map] at hp
    obtain ⟨p0, hp0, hp0e⟩ := hp
    rw [← hp0e] at hcond ⊢
    rw [in_bin_initPeakProb, anyFlagTrue_initPeakProb] at hcond
    exact initPeakProb_probability p0 hcond

/-- Witness for c2_ppa_converges_one_cycle: one sample, one locus, a single
tall homozygous peak; the run converges in one cycle and keeps probability 1. -/
theorem c2_ppa_converges_one_cycle_witness :
    (probabilistic_peak_annot 1 gpFixC2).2.1 = 1
    ∧ (probabilistic_peak_annot 1 gpFixC2).2.2 = true
    ∧ ∀ sa ∈ (probabilistic_peak_annot 1 gpFixC2).1.sample_annots,
        ∀ a ∈ sa.locus_annots, nonFailed a = true →
        ∀ p ∈ a.annotated_peaks, (p.in_bin && !anyFlagTrue p) = true → p.probability = 1 :=
  c2_ppa_converges_one_cycle gpFixC2 1 (by decide)
    (by norm_num [gpFixC2, annotTall, basePeak, heightCond, lpFix, nonFailed])

/-- When peak indices are distinct, excluding a peak by index equals
excluding it by value. -/
lemma filter_ne_peak : ∀ (l : List Peak) (p : Peak),
    (l.map Peak.peak_index).Nodup → p ∈ l →
    l.filter (fun x => decide (x.peak_index ≠ p.peak_index))
      = l.filter (fun x => decide (x ≠ p)) := by
  intro l
  induction l with
  | nil => intro p _ hp; simp at hp
  | cons x t ih =>
    intro p hnd hp
    simp only [List.map_cons, List.nodup_cons] at hnd
    by_cases hxp : x = p
    · subst hxp
      simp only [List.filter_cons]
      rw [if_neg (by simp), if_neg (by simp)]
      have h1 : t.filter (fun y => decide (y.peak_index ≠ x.peak_index)) = t := by
        rw [List.filter_eq_self]
        intro y hy
        simp only [decide_eq_true_eq]
        intro he
        apply hnd.1
        rw [← he]
        exact List.mem_map.mpr ⟨y, hy, rfl⟩
      have h2 : t.filter (fun y => decide (y ≠ x)) = t := by
        rw [List.filter_eq_self]
        intro y hy
        simp only [decide_eq_true_eq]
        intro he
        apply hnd.1
        rw [← he]
        exact List.mem_map.mpr ⟨y, hy, rfl⟩
      rw [h1, h2]
    · have hpt : p ∈ t := by
        rcases List.mem_cons.mp hp with h | h
        · exact absurd h.symm hxp
        · exact h
      have hxi : x.peak_index ≠ p.peak_index := by
        intro he
        apply hnd.1
        rw [he]
        exact List.mem_map.mpr ⟨p, hpt, rfl⟩
      simp only [List.filter_cons]
      rw [if_pos (by simp [hxi]), if_pos (by simp [hxp]), ih p hnd.2 hpt]

/-- C1: in every refinement cycle of probabilistic_peak_annotation, a called
possible-artifact peak of a non-failed annotation (with the annotation's peak
indices distinct, as produced by peak scanning) is reassigned exactly the
probability (total - others ^ moi) / total of the claim, with moi the
sample's MOI estimate of that cycle.  Status: confirmed. -/
theorem c1_probabilistic_formula (st : GPState) (i j k : ℕ)
    (hi : i < st.sample_annots.length)
    (hj : j < (st.sample_annots.get ⟨i, hi⟩).locus_annots.length)
    (hk : k < (annotAt st i j hi hj).annotated_peaks.length)
    (hnf : nonFailed (annotAt st i j hi hj) = true)
    (hnd : ((annotAt st i j hi hj).annotated_peaks.map Peak.peak_index).Nodup)
    (hcalled : st.probability_threshold
      < ((annotAt st i j hi hj).annotated_peaks.get ⟨k, hk⟩).probability)
    (hart : heightCond (st.locus_params (annotAt st i j hi hj).locus_id)
      ((annotAt st i j hi hj).annotated_peaks.get ⟨k, hk⟩) = true)
    (hi2 : i < (oneCycle st).1.sample_annots.length)
    (hj2 : j < ((oneCycle st).1.sample_annots.get ⟨i, hi2⟩).locus_annots.length)
    (hk2 : k < (annotAt (oneCycle st).1 i j hi2 hj2).annotated_peaks.length) :
    ((oneCycle st).1.sample_annots.get ⟨i, hi2⟩).moi
      = moiOf st.probability_threshold (st.sample_annots.get ⟨i, hi⟩)
    ∧ ((annotAt (oneCycle st).1 i j hi2 hj2).annotated_peaks.get ⟨k, hk2⟩).probability
      = claimNewProb st (annotAt st i j hi hj)
          (moiOf st.probability_threshold (st.sample_annots.get ⟨i, hi⟩))
          ((annotAt st i j hi hj).annotated_peaks.get ⟨k, hk⟩) := by
  have e0 : (oneCycle st).1.sample_annots
      = st.sample_annots.map (fun sa => (updateSampleCycle st.probability_threshold
          st.locus_params
          (fun locus bin => alleleFrequency st.probability_threshold (allAnnots st) locus bin)
          sa).1) := by
    simp only [oneCycle, List.map_map]
    rfl
  have e1 : (oneCycle st).1.sample_annots.get ⟨i, hi2⟩
      = (updateSampleCycle st.probability_threshold st.locus_params
          (fun locus bin => alleleFrequency st.probability_threshold (allAnnots st) locus bin)
          (st.sample_annots.get ⟨i, hi⟩)).1 := by
    simp only [e0, List.get_eq_getElem, List.getElem_map]
  have hlist : ((oneCycle st).1.sample_annots.get ⟨i, hi2⟩).locus_annots
      = ((st.sample_annots.get ⟨i, hi⟩).locus_annots.map (fun a =>
          updateAnnotCycle st.probability_threshold (st.locus_params a.locus_id)
            (fun bin => alleleFrequency st.probability_threshold (allAnnots st) a.locus_id bin)
            (moiOf st.probability_threshold (st.sample_annots.get ⟨i, hi⟩)) a)).map Prod.fst := by
    rw [e1]
    exact rfl
  have e2 : annotAt (oneCycle st).1 i j hi2 hj2
      = (updateAnnotCycle st.probability_threshold
          (st.locus_params (annotAt st i j hi hj).locus_id)
          (fun bin => alleleFrequency st.probability_threshold (allAnnots st)
            (annotAt st i j hi hj).locus_id bin)
          (moiOf st.probability_threshold (st.sample_annots.get ⟨i, hi⟩))
          (annotAt st i j hi hj)).1 := by
    simp only [annotAt]
    rw [List.get_of_eq hlist ⟨j, hj2⟩]
    simp only [List.get_eq_getElem, List.getElem_map]
  refine ⟨by rw [e1]; exact rfl, ?_⟩
  have hcondp : (decide (st.probability_threshold
      < ((annotAt st i j hi hj).annotated_peaks.get ⟨k, hk⟩).probability)
      && heightCond (st.locus_params (annotAt st i j hi hj).locus_id)
        ((annotAt st i j hi hj).annotated_peaks.get ⟨k, hk⟩)) = true := by
    rw [hart, decide_eq_true hcalled]
    rfl
  have hpl : (annotAt (oneCycle st).1 i j hi2 hj2).annotated_peaks
      = (annotAt st i j hi hj).annotated_peaks.map (fun p =>
        if decide (st.probability_threshold < p.probability)
            && heightCond (st.locus_params (annotAt st i j hi hj).locus_id) p then
          { p with
              probability := lastAssocD
                ((((annotAt st i j hi hj).annotated_peaks.filter
                    (fun q => decide (st.probability_threshold < q.probability))).filter
                  (fun q => heightCond (st.locus_params (annotAt st i j hi hj).locus_id) q)).map
                  (fun q => (q.peak_index, newProbOf
                    (fun bin => alleleFrequency st.probability_threshold (allAnnots st)
                      (annotAt st i j hi hj).locus_id bin)
                    (moiOf st.probability_threshold (st.sample_annots.get ⟨i, hi⟩))
                    ((annotAt st i j hi hj).annotated_peaks.filter
                      (fun q => decide (st.probability_threshold < q.probability))) q)))
                p.peak_index p.probability }
        else p) := by
    rw [e2]
    simp only [updateAnnotCycle]
    rw [if_pos hnf]
  have e3 : (annotAt (oneCycle st).1 i j hi2 hj2).annotated_peaks.get ⟨k, hk2⟩
      = { (annotAt st i j hi hj).annotated_peaks.get ⟨k, hk⟩ with
          probability := lastAssocD
            ((((annotAt st i j hi hj).annotated_peaks.filter
                (fun q => decide (st.probability_threshold < q.probability))).filter
              (fun q => heightCond (st.locus_params (annotAt st i j hi hj).locus_id) q)).map
              (fun q => (q.peak_index, newProbOf
                (fun bin => alleleFrequency st.probability_threshold (allAnnots st)
                  (annotAt st i j hi hj).locus_id bin)
                (moiOf st.probability_threshold (st.sample_annots.get ⟨i, hi⟩))
                ((annotAt st i j hi hj).annotated_peaks.filter
                  (fun q => decide (st.probability_threshold < q.probability))) q)))
            ((annotAt st i j hi hj).annotated_peaks.get ⟨k, hk⟩).peak_index
            ((annotAt st i j hi hj).annotated_peaks.get ⟨k, hk⟩).probability } := by
    rw [List.get_of_eq hpl ⟨k, hk2⟩]
    simp only [List.get_eq_getElem, List.getElem_map]
    simp only [List.get_eq_getElem] at hcondp
    rw [if_pos hcondp]
  rw [e3]
  have hpmem : (annotAt st i j hi hj).annotated_peaks.get ⟨k, hk⟩
      ∈ (annotAt st i j hi hj).annotated_peaks := List.get_mem _ _ _
  have hcmem : (annotAt st i j hi hj).annotated_peaks.get ⟨k, hk⟩
      ∈ (annotAt st i j hi hj).annotated_peaks.filter
        (fun q => decide (st.probability_threshold < q.probability)) :=
    List.mem_filter.mpr ⟨hpmem, decide_eq_true hcalled⟩
  have hposs : (annotAt st i j hi hj).annotated_peaks.get ⟨k, hk⟩
      ∈ ((annotAt st i j hi hj).annotated_peaks.filter
          (fun q => decide (st.probability_threshold < q.probability))).filter
        (fun q => heightCond (st.locus_params (annotAt st i j hi hj).locus_id) q) :=
    List.mem_filter.mpr ⟨hcmem, hart⟩
  have hndcalled : (((annotAt st i j hi hj).annotated_peaks.filter
      (fun q => decide (st.probability_threshold < q.probability))).map Peak.peak_index).Nodup :=
    List.Nodup.sublist ((List.filter_sublist _).map Peak.peak_index) hnd
  have hndposs : ((((annotAt st i j hi hj).annotated_peaks.filter
      (fun q => decide (st.probability_threshold < q.probability))).filter
        (fun q => heightCond (st.locus_params (annotAt st i j hi hj).locus_id) q)).map
        Peak.peak_index).Nodup :=
    List.Nodup.sublist (((List.filter_sublist _).trans (List.filter_sublist _)).map
      Peak.peak_index) hnd
  have hlast : lastAssocD
      ((((annotAt st i j hi hj).annotated_peaks.filter
          (fun q => decide (st.probability_threshold < q.probability))).filter
        (fun q => heightCond (st.locus_params (annotAt st i j hi hj).locus_id) q)).map
        (fun q => (q.peak_index, newProbOf
          (fun bin => alleleFrequency st.probability_threshold (allAnnots st)
            (annotAt st i j hi hj).locus_id bin)
          (moiOf st.probability_threshold (st.sample_annots.get ⟨i, hi⟩))
          ((annotAt st i j hi hj).annotated_peaks.filter
            (fun q => decide (st.probability_threshold < q.probability))) q)))
      ((annotAt st i j hi hj).annotated_peaks.get ⟨k, hk⟩).peak_index
      ((annotAt st i j hi hj).annotated_peaks.get ⟨k, hk⟩).probability
      = newProbOf
          (fun bin => alleleFrequency st.probability_threshold (allAnnots st)
            (annotAt st i j hi hj).locus_id bin)
          (moiOf st.probability_threshold (st.sample_annots.get ⟨i, hi⟩))
          ((annotAt st i j hi hj).annotated_peaks.filter
            (fun q => decide (st.probability_threshold < q.probability)))
          ((annotAt st i j hi hj).annotated_peaks.get ⟨k, hk⟩) := by
    apply lastAssocD_eq
    · rw [List.map_map]
      exact hndposs
    · exact List.mem_map.mpr ⟨_, hposs, rfl⟩
  rw [hlast]
  have hfne := filter_ne_peak
    ((annotAt st i j hi hj).annotated_peaks.filter
      (fun q => decide (st.probability_threshold < q.probability)))
    ((annotAt st i j hi hj).annotated_peaks.get ⟨k, hk⟩) hndcalled hcmem
  simp only [newProbOf, claimNewProb]
  rw [hfne]

/-- Witness for c1_probabilistic_formula at the two-peak fixture: the low
peak is a called possible artifact and receives the claim's probability. -/
theorem c1_probabilistic_formula_witness :
    ((oneCycle gpFixC1).1.sample_annots.get ⟨0, by decide⟩).moi
      = moiOf gpFixC1.probability_threshold (gpFixC1.sample_annots.get ⟨0, by decide⟩)
    ∧ ((annotAt (oneCycle gpFixC1).1 0 0 (by decide) (by decide)).annotated_peaks.get
        ⟨0, by decide⟩).probability
      = claimNewProb gpFixC1 (annotAt gpFixC1 0 0 (by decide) (by decide))
          (moiOf gpFixC1.probability_threshold (gpFixC1.sample_annots.get ⟨0, by decide⟩))
          ((annotAt gpFixC1 0 0 (by decide) (by decide)).annotated_peaks.get ⟨0, by decide⟩) :=
  c1_probabilistic_formula gpFixC1 0 0 0 (by decide) (by decide) (by decide) (by decide)
    (by decide) (by decide)
    (by norm_num [annotAt, gpFixC1, annotTwoPeaks, peakA, basePeak, heightCond, lpFix])
    (by decide) (by decide) (by decide)

end PlasmoTrack
